import Mathlib

/-! Particle pool (`SimuCore::ParticleCore::ParticlePool`).

A shallow embedding of `ParticlePool.h`: the bookkeeping of the live prefix, the
grouping computation `CalcGroup`, and the index ranges the three bulk calls
(`ParallelSpawn`, `ParallelUpdate`, `RenderAll`) hand to their callbacks.

Conventions.
* `AZ::u32` values are natural numbers below `4294967296`; every `+`, `-`, `*` of the
  source is taken modulo `4294967296` (`add32`, `sub32`, `mul32`).
* An unsigned division by zero is a fault: `div32` returns `none`.
* `IDEAL_GROUP_COUNT` is `64 * 1024 / sizeof(Particle)`; its value depends on the layout
  of `Particle`, which is left open here, so the constant is a parameter of every
  definition that uses it.
* The jobs of one bulk call are recorded as the list of callback invocations, in
  submission order.  The callbacks of `ParallelSpawn` and `ParallelUpdate` receive the
  storage and may write it; they are applied one after the other in submission order.
-/

namespace SimuCore.ParticleCore

/-! ## 32-bit unsigned arithmetic -/

/-- Unsigned 32-bit addition. -/
def add32 (a b : Nat) : Nat := (a + b) % 4294967296

/-- Unsigned 32-bit subtraction. -/
def sub32 (a b : Nat) : Nat := (a % 4294967296 + 4294967296 - b % 4294967296) % 4294967296

/-- Unsigned 32-bit multiplication. -/
def mul32 (a b : Nat) : Nat := (a * b) % 4294967296

/-- Unsigned division; dividing by zero is a fault. -/
def div32 (a b : Nat) : Option Nat := if b = 0 then none else some (a / b)

/-! ## Data model -/

/-- The private fields of `ParticlePool`: `alive`, `maxSize`, `particles`, `maxGroup`. -/
structure ParticlePool (α : Type) where
  alive : Nat
  maxSize : Nat
  particles : List α
  maxGroup : Nat

/-- One invocation `func(particles.data(), start, stop, alive)` made by `ParallelSpawn`. -/
structure SpawnCall where
  start : Nat
  stop : Nat
  alive : Nat
deriving DecidableEq

/-- One invocation `func(data, start, stop)` made by `ParallelUpdate` or `RenderAll`. -/
structure RangeCall where
  start : Nat
  stop : Nat
deriving DecidableEq

/-- Outcome of `ParallelSpawn`: the pool afterwards, the value written to the `begin`
out-parameter, the callback invocations made, and whether `CalcGroup` divided by zero
(in which case no job was created and the fields written before it keep their values). -/
structure SpawnResult (α : Type) where
  pool : ParticlePool α
  begin : Nat
  calls : List SpawnCall
  fault : Bool

/-- Outcome of `ParallelUpdate`: the pool afterwards, the callback invocations made, and
whether `CalcGroup` divided by zero. -/
structure UpdateResult (α : Type) where
  pool : ParticlePool α
  calls : List RangeCall
  fault : Bool

/-- Outcome of `RenderAll`: the pool afterwards (the member is `const` and its callback
gets read-only data, so this is the pool as it was), the callback invocations made, and
whether `CalcGroup` divided by zero. -/
structure RenderResult (α : Type) where
  pool : ParticlePool α
  calls : List RangeCall
  fault : Bool

/-- Outcome of `Event`: the pool afterwards and the callback invocations made. -/
structure EventResult (α : Type) where
  pool : ParticlePool α
  calls : List RangeCall

/-! ## Operations -/

/-- Embedding of `ParticlePool::CalcGroup(count)`, which returns
`(groupNum, countPerGroup, lastGroupCount)`; a division by zero gives `none`. -/
def ParticlePool.CalcGroup {α : Type} (IDEAL_GROUP_COUNT : Nat) (p : ParticlePool α)
    (count : Nat) : Option (Nat × Nat × Nat) :=
  match div32 count (min count IDEAL_GROUP_COUNT) with
  | none => none
  | some q =>
    let groupNum := min q p.maxGroup
    match div32 count groupNum with
    | none => none
    | some countPerGroup =>
      let lastGroupCount := sub32 count (mul32 groupNum countPerGroup)
      some (groupNum, countPerGroup, lastGroupCount)

/-- Embedding of `ParticlePool::ParallelSpawn(num, begin, func)`. -/
def ParticlePool.ParallelSpawn {α : Type} (IDEAL_GROUP_COUNT : Nat) (p : ParticlePool α)
    (num : Nat) (func : List α → Nat → Nat → Nat → List α) : SpawnResult α :=
  let old := p.alive
  let begin := old
  let alive := min (add32 p.alive num) p.maxSize
  let p1 : ParticlePool α := { p with alive := alive }
  let count := sub32 alive old
  if count = 0 then
    { pool := p1, begin := begin, calls := [], fault := false }
  else
    match p1.CalcGroup IDEAL_GROUP_COUNT count with
    | none => { pool := p1, begin := begin, calls := [], fault := true }
    | some (groupNum, countPerGroup, lastGroupCount) =>
      let groups : List SpawnCall := (List.range groupNum).map fun group =>
        let start := add32 (mul32 group countPerGroup) old
        { start := start, stop := add32 start countPerGroup, alive := alive }
      let last : List SpawnCall :=
        if lastGroupCount > 0 then
          let start := add32 (mul32 groupNum countPerGroup) old
          [{ start := start, stop := add32 start lastGroupCount, alive := alive }]
        else []
      let calls := groups ++ last
      { pool := { p1 with
          particles := calls.foldl (fun s c => func s c.start c.stop c.alive) p1.particles },
        begin := begin, calls := calls, fault := false }

/-- Embedding of `ParticlePool::ParallelUpdate(begin, func)`. -/
def ParticlePool.ParallelUpdate {α : Type} (IDEAL_GROUP_COUNT : Nat) (p : ParticlePool α)
    (begin : Nat) (func : List α → Nat → Nat → List α) : UpdateResult α :=
  let count := sub32 p.alive begin
  if count = 0 then
    { pool := p, calls := [], fault := false }
  else
    match p.CalcGroup IDEAL_GROUP_COUNT count with
    | none => { pool := p, calls := [], fault := true }
    | some (groupNum, countPerGroup, lastGroupCount) =>
      let groups : List RangeCall := (List.range groupNum).map fun group =>
        let start := add32 (mul32 group countPerGroup) begin
        { start := start, stop := add32 start countPerGroup }
      let last : List RangeCall :=
        if lastGroupCount > 0 then
          let start := add32 (mul32 groupNum countPerGroup) begin
          [{ start := start, stop := add32 start lastGroupCount }]
        else []
      let calls := groups ++ last
      { pool := { p with
          particles := calls.foldl (fun s c => func s c.start c.stop) p.particles },
        calls := calls, fault := false }

/-- Embedding of `ParticlePool::RenderAll(func) const`.  The callback gets read-only data and returns
nothing, so only its invocations are recorded. -/
def ParticlePool.RenderAll {α : Type} (IDEAL_GROUP_COUNT : Nat) (p : ParticlePool α) :
    RenderResult α :=
  if p.alive = 0 then
    { pool := p, calls := [], fault := false }
  else
    match p.CalcGroup IDEAL_GROUP_COUNT p.alive with
    | none => { pool := p, calls := [], fault := true }
    | some (groupNum, countPerGroup, lastGroupCount) =>
      let groups : List RangeCall := (List.range groupNum).map fun group =>
        let start := mul32 group countPerGroup
        { start := start, stop := add32 start countPerGroup }
      let last : List RangeCall :=
        if lastGroupCount > 0 then
          let start := mul32 groupNum countPerGroup
          [{ start := start, stop := add32 start lastGroupCount }]
        else []
      { pool := p, calls := groups ++ last, fault := false }

/-- Embedding of `ParticlePool::Event(begin, func)`: one inline call
`func(particles.data(), begin, alive)`. -/
def ParticlePool.Event {α : Type} (p : ParticlePool α) (begin : Nat)
    (func : List α → Nat → Nat → List α) : EventResult α :=
  { pool := { p with particles := func p.particles begin p.alive },
    calls := [{ start := begin, stop := p.alive }] }

/-- Modelled from the spec: `ParticlePool::Alive()`, declared in the header with its body
in `ParticlePool.cpp`.  "Alive() returns aliveCount." -/
def ParticlePool.Alive {α : Type} (p : ParticlePool α) : Nat := p.alive

/-- Modelled from the spec: `ParticlePool::Size()`, declared in the header with its body
in `ParticlePool.cpp`.  "Size() returns capacity." -/
def ParticlePool.Size {α : Type} (p : ParticlePool α) : Nat := p.maxSize

/-! ## Predicates on index ranges -/

/-- The half-open index range `[start, stop)` of a spawn invocation. -/
def SpawnCall.range (c : SpawnCall) : Nat × Nat := (c.start, c.stop)

/-- The half-open index range `[start, stop)` of an update or render invocation. -/
def RangeCall.range (c : RangeCall) : Nat × Nat := (c.start, c.stop)

/-- The half-open ranges of `ranges` are pairwise disjoint and their union is exactly
`[lo, hi)`: every index of `[lo, hi)` lies in one of them and none of them holds an index
outside `[lo, hi)`. -/
def Partition (ranges : List (Nat × Nat)) (lo hi : Nat) : Prop :=
  ranges.Pairwise (fun a b => ∀ i, ¬ (a.1 ≤ i ∧ i < a.2 ∧ b.1 ≤ i ∧ i < b.2)) ∧
  ∀ i, (∃ t ∈ ranges, t.1 ≤ i ∧ i < t.2) ↔ (lo ≤ i ∧ i < hi)

/-- Reference layout of a grouped range: the ranges `[b + i*c, b + (i+1)*c)` for
`i < g`, followed by `[b + g*c, b + g*c + r)` when `r > 0`. -/
def tiles (b g c r : Nat) : List (Nat × Nat) :=
  (List.range g).map (fun i => (b + i * c, b + (i + 1) * c)) ++
    (if r > 0 then [(b + g * c, b + g * c + r)] else [])

/-- A sample pool: capacity 10, 4 live records, at most 3 groups. -/
def samplePool : ParticlePool Nat :=
  { alive := 4, maxSize := 10, particles := [0, 0, 0, 0, 0, 0, 0, 0, 0, 0], maxGroup := 3 }

/-! ## Members defined outside the header -/

/-- Modelled from the spec: the constructor `ParticlePool::ParticlePool()`, whose body is
in `ParticlePool.cpp`.  "Pool created with capacity 0"; `alive = 0` and `maxSize = 0` are
also the default member initialisers of the header.  The header gives `maxGroup` no
initialiser, so the value the constructor chooses is a parameter. -/
def ParticlePool.create (α : Type) (maxGroup : Nat) : ParticlePool α :=
  { alive := 0, maxSize := 0, particles := [], maxGroup := maxGroup }

/-- Modelled from the spec: `ParticlePool::Resize(size)`, whose body is in
`ParticlePool.cpp`.  "Sets capacity to newSize, growing/reallocating backing storage as
needed.  Does not change aliveCount beyond clamping it to the new capacity if it shrank";
"existing live records preserved up to new capacity".  New slots hold the default
record. -/
def ParticlePool.Resize {α : Type} [Inhabited α] (p : ParticlePool α) (size : Nat) :
    ParticlePool α :=
  { p with
    maxSize := size
    alive := min p.alive size
    particles := p.particles.take size ++ List.replicate (size - p.particles.length) default }

/-- Modelled from the spec: `ParticlePool::Recycle(beginPos)`, whose body is in
`ParticlePool.cpp`.  "Sets aliveCount = beginPos.  Does not physically clear records." -/
def ParticlePool.Recycle {α : Type} (p : ParticlePool α) (beginPos : Nat) : ParticlePool α :=
  { p with alive := beginPos }

/-- Modelled from the spec: `ParticlePool::Reset()`, whose body is in `ParticlePool.cpp`.
"Reset clears aliveCount to 0 (storage capacity retained)." -/
def ParticlePool.Reset {α : Type} (p : ParticlePool α) : ParticlePool α :=
  { p with alive := 0 }

/-- The pool invariant `0 <= aliveCount <= capacity`. -/
def ParticlePool.Inv {α : Type} (p : ParticlePool α) : Prop := p.alive ≤ p.maxSize

instance {α : Type} (p : ParticlePool α) : Decidable p.Inv :=
  inferInstanceAs (Decidable (p.alive ≤ p.maxSize))

/-- Modelled from the spec: the callback `initFn` of the end-to-end property, which "sets
each record's index to its own position": a loop over `[start, stop)` that writes `i`
into record `i`.  A record is its index field. -/
def initFn (data : List Nat) (start stop _alive : Nat) : List Nat :=
  (List.range (stop - start)).foldl (fun acc k => acc.set (start + k) (start + k)) data

/-- The group count as the grouping is described in words: the number of whole ideal
groups in `count`, at least one, capped at `maxGroup`. -/
def groupNumSpec (IDEAL_GROUP_COUNT maxGroup count : Nat) : Nat :=
  min (max 1 (count / IDEAL_GROUP_COUNT)) maxGroup

/-! # Theorems -/

/-! ## Arithmetic without wrap-around -/

theorem add32_of_lt {a b : Nat} (h : a + b < 4294967296) : add32 a b = a + b := by
  unfold add32; omega

theorem mul32_of_lt {a b : Nat} (h : a * b < 4294967296) : mul32 a b = a * b := by
  unfold mul32; omega

theorem sub32_of_le {a b : Nat} (hb : b ≤ a) (ha : a < 4294967296) : sub32 a b = a - b := by
  unfold sub32; omega

/-! ## The grouping computation -/

/-- With `count > 0`, `maxGroup ≥ 1` and `IDEAL_GROUP_COUNT ≥ 1` neither division of
`CalcGroup` faults and no product or difference wraps. -/
theorem CalcGroup_spec {α : Type} (ideal : Nat) (p : ParticlePool α) (count : Nat)
    (hc : 0 < count) (h32 : count < 4294967296) (hg : 1 ≤ p.maxGroup) (hi : 1 ≤ ideal) :
    ∃ g c r, p.CalcGroup ideal count = some (g, c, r) ∧
      g = min (count / min count ideal) p.maxGroup ∧ c = count / g ∧
      1 ≤ g ∧ g ≤ p.maxGroup ∧ g ≤ count ∧ 1 ≤ c ∧ g * c + r = count := by
  have hm0 : min count ideal ≠ 0 := by omega
  have hmle : min count ideal ≤ count := Nat.min_le_left _ _
  have hq1 : 1 ≤ count / min count ideal := Nat.div_pos hmle (by omega)
  have hqle : count / min count ideal ≤ count := Nat.div_le_self _ _
  have hg1 : 1 ≤ min (count / min count ideal) p.maxGroup := by omega
  have hgle : min (count / min count ideal) p.maxGroup ≤ count := by omega
  have hg0 : min (count / min count ideal) p.maxGroup ≠ 0 := by omega
  have hmul : min (count / min count ideal) p.maxGroup *
      (count / min (count / min count ideal) p.maxGroup) ≤ count := Nat.mul_div_le _ _
  have hc1 : 1 ≤ count / min (count / min count ideal) p.maxGroup := Nat.div_pos hgle (by omega)
  refine ⟨min (count / min count ideal) p.maxGroup,
    count / min (count / min count ideal) p.maxGroup,
    count - min (count / min count ideal) p.maxGroup *
      (count / min (count / min count ideal) p.maxGroup), ?_, rfl, rfl, hg1,
    Nat.min_le_right _ _, hgle, hc1, by omega⟩
  simp only [ParticlePool.CalcGroup, div32, if_neg hm0, if_neg hg0]
  rw [mul32_of_lt (by omega), sub32_of_le hmul h32]

/-! ## Consecutive ranges -/

theorem tiles_pairwise (b g c r : Nat) :
    (tiles b g c r).Pairwise (fun x y => x.2 ≤ y.1) := by
  unfold tiles
  rw [List.pairwise_append]
  refine ⟨?_, ?_, ?_⟩
  · rw [List.pairwise_map]
    refine (List.pairwise_lt_range g).imp ?_
    intro i j hij
    have : (i + 1) * c ≤ j * c := Nat.mul_le_mul_right c hij
    show b + (i + 1) * c ≤ b + j * c
    omega
  · split <;> simp
  · intro x hx y hy
    rw [List.mem_map] at hx
    obtain ⟨i, hi, rfl⟩ := hx
    rw [List.mem_range] at hi
    split at hy
    · rw [List.mem_singleton] at hy
      subst hy
      have : (i + 1) * c ≤ g * c := Nat.mul_le_mul_right c hi
      show b + (i + 1) * c ≤ b + g * c
      omega
    · simp at hy

theorem tiles_nonempty (b g c r : Nat) (hc : 0 < c) :
    ∀ t ∈ tiles b g c r, t.1 < t.2 := by
  intro t ht
  unfold tiles at ht
  rw [List.mem_append] at ht
  rcases ht with ht | ht
  · rw [List.mem_map] at ht
    obtain ⟨i, _, rfl⟩ := ht
    show b + i * c < b + (i + 1) * c
    rw [Nat.add_mul]; omega
  · split at ht
    · rw [List.mem_singleton] at ht
      subst ht
      show b + g * c < b + g * c + r
      omega
    · simp at ht

theorem tiles_cover (b g c r i : Nat) (hc : 0 < c) :
    (∃ t ∈ tiles b g c r, t.1 ≤ i ∧ i < t.2) ↔ (b ≤ i ∧ i < b + g * c + r) := by
  constructor
  · rintro ⟨t, ht, h1, h2⟩
    unfold tiles at ht
    rw [List.mem_append] at ht
    rcases ht with ht | ht
    · rw [List.mem_map] at ht
      obtain ⟨k, hk, rfl⟩ := ht
      rw [List.mem_range] at hk
      have : (k + 1) * c ≤ g * c := Nat.mul_le_mul_right c hk
      simp only at h1 h2
      omega
    · split at ht
      · rw [List.mem_singleton] at ht
        subst ht
        simp only at h1 h2
        omega
      · simp at ht
  · rintro ⟨h1, h2⟩
    by_cases hlt : i < b + g * c
    · have hk : (i - b) / c < g := by
        rw [Nat.div_lt_iff_lt_mul hc]; omega
      have hdm := Nat.div_add_mod (i - b) c
      have hmod := Nat.mod_lt (i - b) hc
      refine ⟨(b + (i - b) / c * c, b + ((i - b) / c + 1) * c), ?_, ?_, ?_⟩
      · unfold tiles
        rw [List.mem_append]
        left
        rw [List.mem_map]
        exact ⟨(i - b) / c, List.mem_range.2 hk, rfl⟩
      · show b + (i - b) / c * c ≤ i
        rw [Nat.mul_comm]; omega
      · show i < b + ((i - b) / c + 1) * c
        rw [Nat.add_mul, Nat.mul_comm]; omega
    · have hr : r > 0 := by omega
      refine ⟨(b + g * c, b + g * c + r), ?_, ?_, ?_⟩
      · unfold tiles
        rw [List.mem_append]
        right
        rw [if_pos hr]
        exact List.mem_singleton.2 rfl
      · show b + g * c ≤ i
        omega
      · show i < b + g * c + r
        omega

/-! ## The dispatch loops compute consecutive ranges -/

theorem dispatch_eq_tiles {β : Type} (mk : Nat → Nat → β) (b g c r count : Nat)
    (h : g * c + r = count) (hb : b + count < 4294967296) :
    ((List.range g).map fun group =>
        mk (add32 (mul32 group c) b) (add32 (add32 (mul32 group c) b) c)) ++
      (if r > 0 then [mk (add32 (mul32 g c) b) (add32 (add32 (mul32 g c) b) r)] else []) =
    (tiles b g c r).map (fun t => mk t.1 t.2) := by
  unfold tiles
  rw [List.map_append, List.map_map]
  congr 1
  · apply List.map_congr_left
    intro i hi
    rw [List.mem_range] at hi
    have h1 : (i + 1) * c ≤ g * c := Nat.mul_le_mul_right c hi
    have h2 : (i + 1) * c = i * c + c := by rw [Nat.add_mul]; omega
    have e1 : mul32 i c = i * c := mul32_of_lt (by omega)
    have e2 : add32 (i * c) b = b + i * c := by rw [add32_of_lt (by omega)]; omega
    have e3 : add32 (b + i * c) c = b + (i + 1) * c := by rw [add32_of_lt (by omega)]; omega
    simp only [Function.comp, e1, e2, e3]
  · by_cases hr : r > 0
    · have e1 : mul32 g c = g * c := mul32_of_lt (by omega)
      have e2 : add32 (g * c) b = b + g * c := by rw [add32_of_lt (by omega)]; omega
      have e3 : add32 (b + g * c) r = b + g * c + r := add32_of_lt (by omega)
      simp only [if_pos hr, e1, e2, e3, List.map_cons, List.map_nil]
    · simp only [if_neg hr, List.map_nil]

theorem dispatch0_eq_tiles {β : Type} (mk : Nat → Nat → β) (g c r count : Nat)
    (h : g * c + r = count) (hb : count < 4294967296) :
    ((List.range g).map fun group =>
        mk (mul32 group c) (add32 (mul32 group c) c)) ++
      (if r > 0 then [mk (mul32 g c) (add32 (mul32 g c) r)] else []) =
    (tiles 0 g c r).map (fun t => mk t.1 t.2) := by
  unfold tiles
  rw [List.map_append, List.map_map]
  congr 1
  · apply List.map_congr_left
    intro i hi
    rw [List.mem_range] at hi
    have h1 : (i + 1) * c ≤ g * c := Nat.mul_le_mul_right c hi
    have h2 : (i + 1) * c = i * c + c := by rw [Nat.add_mul]; omega
    have e1 : mul32 i c = i * c := mul32_of_lt (by omega)
    have e3 : add32 (i * c) c = (i + 1) * c := by rw [add32_of_lt (by omega)]; omega
    simp only [Function.comp, e1, e3, Nat.zero_add]
  · by_cases hr : r > 0
    · have e1 : mul32 g c = g * c := mul32_of_lt (by omega)
      have e3 : add32 (g * c) r = g * c + r := add32_of_lt (by omega)
      simp only [if_pos hr, e1, e3, List.map_cons, List.map_nil, Nat.zero_add]
    · simp only [if_neg hr, List.map_nil]

/-- The bookkeeping of `ParallelSpawn` (lines 39 to 41) does not depend on the grouping. -/
theorem ParallelSpawn_bookkeeping {α : Type} (ideal : Nat) (p : ParticlePool α) (num : Nat)
    (func : List α → Nat → Nat → Nat → List α) :
    (p.ParallelSpawn ideal num func).begin = p.alive ∧
    (p.ParallelSpawn ideal num func).pool.alive = min (add32 p.alive num) p.maxSize ∧
    (p.ParallelSpawn ideal num func).pool.maxSize = p.maxSize ∧
    (p.ParallelSpawn ideal num func).pool.maxGroup = p.maxGroup := by
  unfold ParticlePool.ParallelSpawn
  simp only
  split
  · exact ⟨rfl, rfl, rfl, rfl⟩
  · split
    · exact ⟨rfl, rfl, rfl, rfl⟩
    · exact ⟨rfl, rfl, rfl, rfl⟩

/-- A spawn that adds `count > 0` slots without wrap-around, on a pool with
`maxGroup ≥ 1`: the invocations are the consecutive ranges of the grouping of `count`. -/
theorem ParallelSpawn_calls {α : Type} (ideal : Nat) (p : ParticlePool α) (num : Nat)
    (func : List α → Nat → Nat → Nat → List α)
    (hcap : p.maxSize < 4294967296)
    (hnw : p.alive + num < 4294967296) (hg : 1 ≤ p.maxGroup) (hi : 1 ≤ ideal)
    (hpos : p.alive < min (p.alive + num) p.maxSize) :
    ∃ g c r, p.CalcGroup ideal (min (p.alive + num) p.maxSize - p.alive) = some (g, c, r) ∧
      1 ≤ g ∧ g ≤ p.maxGroup ∧ 1 ≤ c ∧
      g * c + r = min (p.alive + num) p.maxSize - p.alive ∧
      (p.ParallelSpawn ideal num func).fault = false ∧
      (p.ParallelSpawn ideal num func).calls =
        (tiles p.alive g c r).map
          (fun t => ({ start := t.1, stop := t.2,
                       alive := min (p.alive + num) p.maxSize } : SpawnCall)) := by
  obtain ⟨g, c, r, hcg, -, -, hg1, hgm, -, hc1, hsum⟩ :=
    CalcGroup_spec ideal p (min (p.alive + num) p.maxSize - p.alive)
      (by omega) (by omega) hg hi
  refine ⟨g, c, r, hcg, hg1, hgm, hc1, hsum, ?_⟩
  have hadd : add32 p.alive num = p.alive + num := add32_of_lt hnw
  have hsub : sub32 (min (p.alive + num) p.maxSize) p.alive =
      min (p.alive + num) p.maxSize - p.alive := sub32_of_le (by omega) (by omega)
  have hcg1 : ({ p with alive := min (p.alive + num) p.maxSize } : ParticlePool α).CalcGroup
      ideal (min (p.alive + num) p.maxSize - p.alive) = some (g, c, r) := hcg
  have hne : ¬ (min (p.alive + num) p.maxSize - p.alive = 0) := by omega
  unfold ParticlePool.ParallelSpawn
  simp only [hadd, hsub, if_neg hne, hcg1, true_and]
  exact dispatch_eq_tiles
    (fun s e => ({ start := s, stop := e,
                   alive := min (p.alive + num) p.maxSize } : SpawnCall))
    p.alive g c r _ hsum (by omega)

/-- An update over `[begin, alive)` with `begin < alive`, on a pool with `maxGroup ≥ 1`:
the invocations are the consecutive ranges of the grouping of `alive - begin`. -/
theorem ParallelUpdate_calls {α : Type} (ideal : Nat) (p : ParticlePool α) (begin : Nat)
    (func : List α → Nat → Nat → List α)
    (halive : p.alive < 4294967296) (hg : 1 ≤ p.maxGroup) (hi : 1 ≤ ideal)
    (hpos : begin < p.alive) :
    ∃ g c r, p.CalcGroup ideal (p.alive - begin) = some (g, c, r) ∧
      1 ≤ g ∧ g ≤ p.maxGroup ∧ 1 ≤ c ∧ g * c + r = p.alive - begin ∧
      (p.ParallelUpdate ideal begin func).fault = false ∧
      (p.ParallelUpdate ideal begin func).calls =
        (tiles begin g c r).map (fun t => ({ start := t.1, stop := t.2 } : RangeCall)) := by
  obtain ⟨g, c, r, hcg, -, -, hg1, hgm, -, hc1, hsum⟩ :=
    CalcGroup_spec ideal p (p.alive - begin) (by omega) (by omega) hg hi
  refine ⟨g, c, r, hcg, hg1, hgm, hc1, hsum, ?_⟩
  have hsub : sub32 p.alive begin = p.alive - begin := sub32_of_le (by omega) halive
  have hne : ¬ (p.alive - begin = 0) := by omega
  unfold ParticlePool.ParallelUpdate
  simp only [hsub, if_neg hne, hcg, true_and]
  exact dispatch_eq_tiles (fun s e => ({ start := s, stop := e } : RangeCall))
    begin g c r _ hsum (by omega)

/-- A traversal of a non-empty live prefix, on a pool with `maxGroup ≥ 1`: the invocations
are the consecutive ranges of the grouping of `alive`, starting at index 0. -/
theorem RenderAll_calls {α : Type} (ideal : Nat) (p : ParticlePool α)
    (halive : p.alive < 4294967296) (hg : 1 ≤ p.maxGroup) (hi : 1 ≤ ideal)
    (hpos : 0 < p.alive) :
    ∃ g c r, p.CalcGroup ideal p.alive = some (g, c, r) ∧
      1 ≤ g ∧ g ≤ p.maxGroup ∧ 1 ≤ c ∧ g * c + r = p.alive ∧
      (p.RenderAll ideal).fault = false ∧
      (p.RenderAll ideal).calls =
        (tiles 0 g c r).map (fun t => ({ start := t.1, stop := t.2 } : RangeCall)) := by
  obtain ⟨g, c, r, hcg, -, -, hg1, hgm, -, hc1, hsum⟩ :=
    CalcGroup_spec ideal p p.alive hpos halive hg hi
  refine ⟨g, c, r, hcg, hg1, hgm, hc1, hsum, ?_⟩
  have hne : ¬ (p.alive = 0) := by omega
  unfold ParticlePool.RenderAll
  simp only [if_neg hne, hcg, true_and]
  exact dispatch0_eq_tiles (fun s e => ({ start := s, stop := e } : RangeCall))
    g c r _ hsum halive

/-! ## Faults and inversion of `CalcGroup` -/

theorem CalcGroup_groupNum_le {α : Type} (ideal : Nat) (p : ParticlePool α) (count : Nat)
    {g c r : Nat} (h : p.CalcGroup ideal count = some (g, c, r)) : g ≤ p.maxGroup := by
  unfold ParticlePool.CalcGroup at h
  split at h
  · exact absurd h (by simp)
  · simp only at h
    split at h
    · exact absurd h (by simp)
    · simp only [Option.some.injEq, Prod.mk.injEq] at h
      rw [← h.1]
      exact Nat.min_le_right _ _

theorem CalcGroup_none {α : Type} (ideal : Nat) (p : ParticlePool α) (count : Nat)
    (h : ideal = 0 ∨ p.maxGroup = 0) : p.CalcGroup ideal count = none := by
  unfold ParticlePool.CalcGroup
  split
  · rfl
  · next q hq =>
    rcases h with h | h
    · simp [div32, h] at hq
    · simp [div32, h]

theorem ParallelSpawn_calls_length {α : Type} (ideal : Nat) (p : ParticlePool α) (num : Nat)
    (func : List α → Nat → Nat → Nat → List α) :
    (p.ParallelSpawn ideal num func).calls.length ≤ p.maxGroup + 1 := by
  unfold ParticlePool.ParallelSpawn
  simp only
  split
  · simp
  · split
    · simp
    · next g c r hcg =>
      have hle : g ≤ p.maxGroup := CalcGroup_groupNum_le ideal _ _ hcg
      simp only [List.length_append, List.length_map, List.length_range]
      split <;> simp <;> omega

theorem ParallelUpdate_calls_length {α : Type} (ideal : Nat) (p : ParticlePool α)
    (begin : Nat) (func : List α → Nat → Nat → List α) :
    (p.ParallelUpdate ideal begin func).calls.length ≤ p.maxGroup + 1 := by
  unfold ParticlePool.ParallelUpdate
  simp only
  split
  · simp
  · split
    · simp
    · next g c r hcg =>
      have hle : g ≤ p.maxGroup := CalcGroup_groupNum_le ideal _ _ hcg
      simp only [List.length_append, List.length_map, List.length_range]
      split <;> simp <;> omega

theorem RenderAll_calls_length {α : Type} (ideal : Nat) (p : ParticlePool α) :
    (p.RenderAll ideal).calls.length ≤ p.maxGroup + 1 := by
  unfold ParticlePool.RenderAll
  split
  · simp
  · split
    · simp
    · next g c r hcg =>
      have hle : g ≤ p.maxGroup := CalcGroup_groupNum_le ideal _ _ hcg
      simp only [List.length_append, List.length_map, List.length_range]
      split <;> simp <;> omega

/-- A spawn on a pool whose grouping faults makes no callback invocation. -/
theorem ParallelSpawn_calls_of_fault {α : Type} (ideal : Nat) (p : ParticlePool α) (num : Nat)
    (func : List α → Nat → Nat → Nat → List α) (h : ideal = 0 ∨ p.maxGroup = 0) :
    (p.ParallelSpawn ideal num func).calls = [] := by
  unfold ParticlePool.ParallelSpawn
  simp only
  split
  · rfl
  · have hn := CalcGroup_none ideal
      ({ p with alive := min (add32 p.alive num) p.maxSize } : ParticlePool α)
      (sub32 (min (add32 p.alive num) p.maxSize) p.alive) h
    rw [hn]

/-! ## Partitions of an index range -/

theorem partition_of_tiles (b g c r : Nat) (hc : 0 < c) :
    Partition (tiles b g c r) b (b + g * c + r) := by
  refine ⟨?_, fun i => tiles_cover b g c r i hc⟩
  refine (tiles_pairwise b g c r).imp ?_
  intro x y hxy i hi
  omega

theorem map_range_spawn (l : List (Nat × Nat)) (a : Nat) :
    (l.map (fun t => ({ start := t.1, stop := t.2, alive := a } : SpawnCall))).map
      SpawnCall.range = l := by
  rw [List.map_map]
  exact List.map_id _

theorem map_range_call (l : List (Nat × Nat)) :
    (l.map (fun t => ({ start := t.1, stop := t.2 } : RangeCall))).map
      RangeCall.range = l := by
  rw [List.map_map]
  exact List.map_id _

/-! ## Claims about the bulk calls and the grouping -/

/-- C1: on a pool with `maxGroup ≥ 1` and `alive ≤ maxSize`, a `ParallelSpawn` that adds
at least one slot (with `alive + num` not wrapping) hands its callback ranges that are
pairwise disjoint and whose union is exactly `[old, new alive)`, and a `ParallelUpdate`
with `begin < alive` hands its callback ranges that are pairwise disjoint and whose union
is exactly `[begin, alive)`; neither call faults. -/
theorem C1_bulk_ranges_partition {α : Type} (ideal : Nat) (p : ParticlePool α)
    (hg : 1 ≤ p.maxGroup) (hi : 1 ≤ ideal)
    (hinv : p.alive ≤ p.maxSize) (hcap : p.maxSize < 4294967296) :
    (∀ (num : Nat) (func : List α → Nat → Nat → Nat → List α),
      0 < num → p.alive < p.maxSize → p.alive + num < 4294967296 →
        (p.ParallelSpawn ideal num func).fault = false ∧
        Partition ((p.ParallelSpawn ideal num func).calls.map SpawnCall.range)
          p.alive (p.ParallelSpawn ideal num func).pool.alive) ∧
    (∀ (begin : Nat) (func : List α → Nat → Nat → List α),
      begin < p.alive →
        (p.ParallelUpdate ideal begin func).fault = false ∧
        Partition ((p.ParallelUpdate ideal begin func).calls.map RangeCall.range)
          begin p.alive) := by
  constructor
  · intro num func hnum hroom hnw
    obtain ⟨g, c, r, -, -, -, hc1, hsum, hfault, hcalls⟩ :=
      ParallelSpawn_calls ideal p num func hcap hnw hg hi (by omega)
    refine ⟨hfault, ?_⟩
    rw [hcalls, map_range_spawn, (ParallelSpawn_bookkeeping ideal p num func).2.1,
      add32_of_lt hnw]
    have hend : min (p.alive + num) p.maxSize = p.alive + g * c + r := by omega
    rw [hend]
    exact partition_of_tiles p.alive g c r hc1
  · intro begin func hlt
    obtain ⟨g, c, r, -, -, -, hc1, hsum, hfault, hcalls⟩ :=
      ParallelUpdate_calls ideal p begin func (by omega) hg hi hlt
    refine ⟨hfault, ?_⟩
    rw [hcalls, map_range_call]
    have hend : p.alive = begin + g * c + r := by omega
    rw [hend]
    exact partition_of_tiles begin g c r hc1

/-- Witness for C1: capacity 10, 4 live records, 3 groups at most, ideal group size 2;
spawning 5 records and updating from index 1. -/
theorem C1_bulk_ranges_partition_witness :
    Partition ((ParticlePool.ParallelSpawn 2
        ({ alive := 4, maxSize := 10, particles := [], maxGroup := 3 } : ParticlePool Nat)
        5 (fun s _ _ _ => s)).calls.map SpawnCall.range) 4 9 ∧
    Partition ((ParticlePool.ParallelUpdate 2
        ({ alive := 4, maxSize := 10, particles := [], maxGroup := 3 } : ParticlePool Nat)
        1 (fun s _ _ => s)).calls.map RangeCall.range) 1 4 :=
  ⟨((C1_bulk_ranges_partition 2
        ({ alive := 4, maxSize := 10, particles := [], maxGroup := 3 } : ParticlePool Nat)
        (by decide) (by decide) (by decide) (by decide)).1 5 (fun s _ _ _ => s)
        (by decide) (by decide) (by decide)).2,
   ((C1_bulk_ranges_partition 2
        ({ alive := 4, maxSize := 10, particles := [], maxGroup := 3 } : ParticlePool Nat)
        (by decide) (by decide) (by decide) (by decide)).2 1 (fun s _ _ => s)
        (by decide)).2⟩

/-- C2: when `alive + num` does not exceed the 32-bit range, `ParallelSpawn` writes the
previous `alive` to `begin`, sets `alive` to `min (old + num) maxSize`, and leaves
`maxSize` unchanged. -/
theorem C2_spawn_bookkeeping {α : Type} (ideal : Nat) (p : ParticlePool α) (num : Nat)
    (func : List α → Nat → Nat → Nat → List α)
    (hnw : p.alive + num < 4294967296) :
    (p.ParallelSpawn ideal num func).begin = p.alive ∧
    (p.ParallelSpawn ideal num func).pool.alive = min (p.alive + num) p.maxSize ∧
    (p.ParallelSpawn ideal num func).pool.maxSize = p.maxSize := by
  obtain ⟨h1, h2, h3, -⟩ := ParallelSpawn_bookkeeping ideal p num func
  rw [add32_of_lt hnw] at h2
  exact ⟨h1, h2, h3⟩

/-- Witness for C2: capacity 10, 8 live records, 5 requested. -/
theorem C2_spawn_bookkeeping_witness :
    (ParticlePool.ParallelSpawn 2
        ({ alive := 8, maxSize := 10, particles := [], maxGroup := 3 } : ParticlePool Nat)
        5 (fun s _ _ _ => s)).begin = 8 ∧
    (ParticlePool.ParallelSpawn 2
        ({ alive := 8, maxSize := 10, particles := [], maxGroup := 3 } : ParticlePool Nat)
        5 (fun s _ _ _ => s)).pool.alive = min (8 + 5) 10 ∧
    (ParticlePool.ParallelSpawn 2
        ({ alive := 8, maxSize := 10, particles := [], maxGroup := 3 } : ParticlePool Nat)
        5 (fun s _ _ _ => s)).pool.maxSize = 10 :=
  C2_spawn_bookkeeping 2
    ({ alive := 8, maxSize := 10, particles := [], maxGroup := 3 } : ParticlePool Nat)
    5 (fun s _ _ _ => s) (by decide)

/-- C3 (evaluation at the failing input): with 5 live records of capacity 10 and
`num = 4294967295` the sum `alive + num` wraps to 4, so `alive` drops from 5 to 4, the
count `4 - 5` wraps to `4294967295`, and the callbacks are handed ranges far beyond the
capacity. -/
theorem C3_spawn_wraps_at_large_num :
    (ParticlePool.ParallelSpawn 1024
        ({ alive := 5, maxSize := 10, particles := [], maxGroup := 4 } : ParticlePool Nat)
        4294967295 (fun s _ _ _ => s)).pool.alive = 4 ∧
    (ParticlePool.ParallelSpawn 1024
        ({ alive := 5, maxSize := 10, particles := [], maxGroup := 4 } : ParticlePool Nat)
        4294967295 (fun s _ _ _ => s)).calls =
      [⟨5, 1073741828, 4⟩, ⟨1073741828, 2147483651, 4⟩, ⟨2147483651, 3221225474, 4⟩,
       ⟨3221225474, 1, 4⟩, ⟨1, 4, 4⟩] := by
  decide

/-- C4: with `alive ≤ maxSize` and `alive + num` not wrapping, after `ParallelSpawn` the
delta `Alive() - begin` is strictly less than `num` exactly when `old + num > maxSize`;
in that case `alive` equals `maxSize` and every range handed to the callback is a
non-empty range inside `[old, maxSize)`. -/
theorem C4_spawn_clamp_detectable {α : Type} (ideal : Nat) (p : ParticlePool α) (num : Nat)
    (func : List α → Nat → Nat → Nat → List α)
    (hinv : p.alive ≤ p.maxSize) (hcap : p.maxSize < 4294967296)
    (hnw : p.alive + num < 4294967296) :
    ((p.ParallelSpawn ideal num func).pool.Alive - (p.ParallelSpawn ideal num func).begin < num
      ↔ p.maxSize < p.alive + num) ∧
    (p.maxSize < p.alive + num →
      (p.ParallelSpawn ideal num func).pool.Alive = p.maxSize ∧
      ∀ c ∈ (p.ParallelSpawn ideal num func).calls,
        p.alive ≤ c.start ∧ c.start < c.stop ∧ c.stop ≤ p.maxSize) := by
  obtain ⟨h1, h2, -, -⟩ := ParallelSpawn_bookkeeping ideal p num func
  rw [add32_of_lt hnw] at h2
  unfold ParticlePool.Alive
  rw [h1, h2]
  refine ⟨by omega, fun hover => ⟨by omega, ?_⟩⟩
  intro c hc
  by_cases hf : ideal = 0 ∨ p.maxGroup = 0
  · rw [ParallelSpawn_calls_of_fault ideal p num func hf] at hc
    exact absurd hc (List.not_mem_nil c)
  · by_cases hroom : p.alive < p.maxSize
    · obtain ⟨g, k, r, -, -, -, hk1, hsum, -, hcalls⟩ :=
        ParallelSpawn_calls ideal p num func hcap hnw (by omega) (by omega) (by omega)
      rw [hcalls, List.mem_map] at hc
      obtain ⟨t, ht, rfl⟩ := hc
      have hne := tiles_nonempty p.alive g k r hk1 t ht
      have hcov := (tiles_cover p.alive g k r t.1 hk1).1 ⟨t, ht, Nat.le_refl _, hne⟩
      have hcov2 := (tiles_cover p.alive g k r (t.2 - 1) hk1).1 ⟨t, ht, by omega, by omega⟩
      simp only
      omega
    · have hzero : sub32 (min (add32 p.alive num) p.maxSize) p.alive = 0 := by
        rw [add32_of_lt hnw, sub32_of_le (by omega) (by omega)]; omega
      unfold ParticlePool.ParallelSpawn at hc
      simp only [hzero, if_true] at hc
      exact absurd hc (List.not_mem_nil c)

/-- Witness for C4: capacity 10, 8 live records, 5 requested: `alive` becomes 10, `begin`
is 8, and the callback is invoked once, on `[8, 10)`. -/
theorem C4_spawn_clamp_detectable_witness :
    (ParticlePool.ParallelSpawn 1024
        ({ alive := 8, maxSize := 10, particles := [], maxGroup := 4 } : ParticlePool Nat)
        5 (fun s _ _ _ => s)).calls = [⟨8, 10, 10⟩] ∧
    (ParticlePool.ParallelSpawn 1024
        ({ alive := 8, maxSize := 10, particles := [], maxGroup := 4 } : ParticlePool Nat)
        5 (fun s _ _ _ => s)).begin = 8 ∧
    (ParticlePool.ParallelSpawn 1024
        ({ alive := 8, maxSize := 10, particles := [], maxGroup := 4 } : ParticlePool Nat)
        5 (fun s _ _ _ => s)).pool.Alive = 10 :=
  ⟨by decide, by decide,
   ((C4_spawn_clamp_detectable 1024
      ({ alive := 8, maxSize := 10, particles := [], maxGroup := 4 } : ParticlePool Nat)
      5 (fun s _ _ _ => s) (by decide) (by decide) (by decide)).2 (by decide)).1⟩

/-- C5: for a 32-bit `count > 0`, `maxGroup ≥ 1` and `IDEAL_GROUP_COUNT ≥ 1`, `CalcGroup`
returns `(groupNum, countPerGroup, lastGroupCount)` with `1 ≤ groupNum ≤ maxGroup` and
`countPerGroup * groupNum + lastGroupCount = count` in exact arithmetic, the 32-bit
product `groupNum * countPerGroup` being the exact product. -/
theorem C5_grouping_exact {α : Type} (ideal : Nat) (p : ParticlePool α) (count : Nat)
    (hc : 0 < count) (h32 : count < 4294967296) (hg : 1 ≤ p.maxGroup) (hi : 1 ≤ ideal) :
    ∃ groupNum countPerGroup lastGroupCount,
      p.CalcGroup ideal count = some (groupNum, countPerGroup, lastGroupCount) ∧
      1 ≤ groupNum ∧ groupNum ≤ p.maxGroup ∧
      countPerGroup * groupNum + lastGroupCount = count ∧
      mul32 groupNum countPerGroup = groupNum * countPerGroup := by
  obtain ⟨g, c, r, hcg, -, -, hg1, hgm, -, -, hsum⟩ := CalcGroup_spec ideal p count hc h32 hg hi
  refine ⟨g, c, r, hcg, hg1, hgm, ?_, mul32_of_lt (by omega)⟩
  rw [Nat.mul_comm]; exact hsum

/-- Witness for C5: 100 items, at most 40 groups, ideal group size 2. -/
theorem C5_grouping_exact_witness :
    ∃ groupNum countPerGroup lastGroupCount,
      ParticlePool.CalcGroup 2
        ({ alive := 0, maxSize := 0, particles := [], maxGroup := 40 } : ParticlePool Nat)
        100 = some (groupNum, countPerGroup, lastGroupCount) ∧
      1 ≤ groupNum ∧ groupNum ≤ 40 ∧
      countPerGroup * groupNum + lastGroupCount = 100 ∧
      mul32 groupNum countPerGroup = groupNum * countPerGroup :=
  C5_grouping_exact 2
    ({ alive := 0, maxSize := 0, particles := [], maxGroup := 40 } : ParticlePool Nat)
    100 (by decide) (by decide) (by decide) (by decide)

/-- C6 (counterexample): on a pool whose `maxGroup` is 0, `CalcGroup 5` computes
`groupNum = min (5 / 5) 0 = 0` and the division `count / groupNum` is a division by zero:
there is no result, let alone one with `groupNum ≥ 1`. -/
theorem C6_maxGroup_zero_divides_by_zero :
    ParticlePool.CalcGroup 1024
        ({ alive := 5, maxSize := 10, particles := [], maxGroup := 0 } : ParticlePool Nat) 5
      = none ∧
    ¬ ∃ groupNum countPerGroup lastGroupCount,
      ParticlePool.CalcGroup 1024
        ({ alive := 5, maxSize := 10, particles := [], maxGroup := 0 } : ParticlePool Nat) 5
        = some (groupNum, countPerGroup, lastGroupCount) ∧ 1 ≤ groupNum := by
  have h : ParticlePool.CalcGroup 1024
      ({ alive := 5, maxSize := 10, particles := [], maxGroup := 0 } : ParticlePool Nat) 5
      = none := by decide
  refine ⟨h, ?_⟩
  rintro ⟨g, c, r, hsome, -⟩
  rw [h] at hsome
  exact Option.noConfusion hsome

/-- C6 (amended): for `count > 0`, `maxGroup ≥ 1` and `IDEAL_GROUP_COUNT ≥ 1`, neither
division of `CalcGroup` is a division by zero and the computed
`groupNum = min (count / min count IDEAL_GROUP_COUNT) maxGroup` is at least 1. -/
theorem C6_groupNum_pos {α : Type} (ideal : Nat) (p : ParticlePool α) (count : Nat)
    (hc : 0 < count) (hg : 1 ≤ p.maxGroup) (hi : 1 ≤ ideal) :
    ∃ groupNum countPerGroup lastGroupCount,
      p.CalcGroup ideal count = some (groupNum, countPerGroup, lastGroupCount) ∧
      groupNum = min (count / min count ideal) p.maxGroup ∧ 1 ≤ groupNum := by
  have hm0 : min count ideal ≠ 0 := by omega
  have hq1 : 1 ≤ count / min count ideal :=
    Nat.div_pos (Nat.min_le_left _ _) (by omega)
  have hg0 : min (count / min count ideal) p.maxGroup ≠ 0 := by omega
  refine ⟨min (count / min count ideal) p.maxGroup,
    count / min (count / min count ideal) p.maxGroup,
    sub32 count (mul32 (min (count / min count ideal) p.maxGroup)
      (count / min (count / min count ideal) p.maxGroup)), ?_, rfl, by omega⟩
  simp only [ParticlePool.CalcGroup, div32, if_neg hm0, if_neg hg0]

/-- Witness for C6 (amended): 100 items, at most 40 groups, ideal group size 2. -/
theorem C6_groupNum_pos_witness :
    ∃ groupNum countPerGroup lastGroupCount,
      ParticlePool.CalcGroup 2
        ({ alive := 100, maxSize := 100, particles := [], maxGroup := 40 } : ParticlePool Nat)
        100 = some (groupNum, countPerGroup, lastGroupCount) ∧
      groupNum = min (100 / min 100 2) 40 ∧ 1 ≤ groupNum :=
  C6_groupNum_pos 2
    ({ alive := 100, maxSize := 100, particles := [], maxGroup := 40 } : ParticlePool Nat)
    100 (by decide) (by decide) (by decide)

/-- C7 (counterexample): with `maxGroup = 3` and ideal group size 3, spawning 10 records
dispatches 4 tasks (three of 3 records and a trailing one of 1 record), more than
`maxGroup`. -/
theorem C7_tasks_exceed_maxGroup :
    (ParticlePool.ParallelSpawn 3
        ({ alive := 0, maxSize := 100, particles := [], maxGroup := 3 } : ParticlePool Nat)
        10 (fun s _ _ _ => s)).calls =
      [⟨0, 3, 10⟩, ⟨3, 6, 10⟩, ⟨6, 9, 10⟩, ⟨9, 10, 10⟩] ∧
    ¬ ((ParticlePool.ParallelSpawn 3
        ({ alive := 0, maxSize := 100, particles := [], maxGroup := 3 } : ParticlePool Nat)
        10 (fun s _ _ _ => s)).calls.length ≤ 3) := by
  decide

/-- C7 (amended): every `ParallelSpawn`, `ParallelUpdate` and `RenderAll` dispatches at
most `maxGroup + 1` tasks: at most `maxGroup` equal-sized ones and at most one trailing
task. -/
theorem C7_tasks_le_maxGroup_succ {α : Type} (ideal : Nat) (p : ParticlePool α) :
    (∀ (num : Nat) (func : List α → Nat → Nat → Nat → List α),
      (p.ParallelSpawn ideal num func).calls.length ≤ p.maxGroup + 1) ∧
    (∀ (begin : Nat) (func : List α → Nat → Nat → List α),
      (p.ParallelUpdate ideal begin func).calls.length ≤ p.maxGroup + 1) ∧
    (p.RenderAll ideal).calls.length ≤ p.maxGroup + 1 :=
  ⟨fun num func => ParallelSpawn_calls_length ideal p num func,
   fun begin func => ParallelUpdate_calls_length ideal p begin func,
   RenderAll_calls_length ideal p⟩

theorem tiles_map_eq {β : Type} (mk : Nat → Nat → β) (b g c r : Nat) :
    (tiles b g c r).map (fun t => mk t.1 t.2) =
      (List.range g).map (fun i => mk (b + i * c) (b + (i + 1) * c)) ++
        (if 0 < r then [mk (b + g * c) (b + g * c + r)] else []) := by
  unfold tiles
  rw [List.map_append, List.map_map]
  congr 1
  split <;> rfl

/-- C8: on a pool with `maxGroup ≥ 1`, a bulk call over `count > 0` items starting at
index `b` (for `ParallelSpawn`, `b = old` and `count = new alive - old`, with
`old + num` not wrapping; for `ParallelUpdate`, `b = begin < alive` and
`count = alive - begin`; for `RenderAll`, `b = 0` and `count = alive`) invokes the
callback, with `(groupNum, countPerGroup, lastGroupCount) = CalcGroup count`, on
`[b + i * countPerGroup, b + (i + 1) * countPerGroup)` for `i < groupNum`, then on
`[b + groupNum * countPerGroup, b + count)` exactly when `lastGroupCount > 0`, and on
nothing else. -/
theorem C8_dispatch_shape {α : Type} (ideal : Nat) (p : ParticlePool α)
    (hg : 1 ≤ p.maxGroup) (hi : 1 ≤ ideal) (hcap : p.maxSize < 4294967296)
    (halive : p.alive < 4294967296) :
    (∀ (num : Nat) (func : List α → Nat → Nat → Nat → List α),
      0 < num → p.alive < p.maxSize → p.alive + num < 4294967296 →
      ∃ groupNum countPerGroup lastGroupCount,
        p.CalcGroup ideal (min (p.alive + num) p.maxSize - p.alive) =
          some (groupNum, countPerGroup, lastGroupCount) ∧
        (p.ParallelSpawn ideal num func).calls =
          (List.range groupNum).map (fun i =>
            ({ start := p.alive + i * countPerGroup,
               stop := p.alive + (i + 1) * countPerGroup,
               alive := min (p.alive + num) p.maxSize } : SpawnCall)) ++
          (if 0 < lastGroupCount then
            [({ start := p.alive + groupNum * countPerGroup,
                stop := min (p.alive + num) p.maxSize,
                alive := min (p.alive + num) p.maxSize } : SpawnCall)]
           else [])) ∧
    (∀ (begin : Nat) (func : List α → Nat → Nat → List α),
      begin < p.alive →
      ∃ groupNum countPerGroup lastGroupCount,
        p.CalcGroup ideal (p.alive - begin) =
          some (groupNum, countPerGroup, lastGroupCount) ∧
        (p.ParallelUpdate ideal begin func).calls =
          (List.range groupNum).map (fun i =>
            ({ start := begin + i * countPerGroup,
               stop := begin + (i + 1) * countPerGroup } : RangeCall)) ++
          (if 0 < lastGroupCount then
            [({ start := begin + groupNum * countPerGroup, stop := p.alive } : RangeCall)]
           else [])) ∧
    (0 < p.alive →
      ∃ groupNum countPerGroup lastGroupCount,
        p.CalcGroup ideal p.alive = some (groupNum, countPerGroup, lastGroupCount) ∧
        (p.RenderAll ideal).calls =
          (List.range groupNum).map (fun i =>
            ({ start := i * countPerGroup,
               stop := (i + 1) * countPerGroup } : RangeCall)) ++
          (if 0 < lastGroupCount then
            [({ start := groupNum * countPerGroup, stop := p.alive } : RangeCall)]
           else [])) := by
  refine ⟨?_, ?_, ?_⟩
  · intro num func hnum hroom hnw
    obtain ⟨g, c, r, hcg, -, -, -, hsum, -, hcalls⟩ :=
      ParallelSpawn_calls ideal p num func hcap hnw hg hi (by omega)
    refine ⟨g, c, r, hcg, ?_⟩
    have hend : p.alive + g * c + r = min (p.alive + num) p.maxSize := by omega
    have key := tiles_map_eq
      (fun s e => (SpawnCall.mk s e (min (p.alive + num) p.maxSize))) p.alive g c r
    rw [hend] at key
    rw [hcalls]
    exact key
  · intro begin func hlt
    obtain ⟨g, c, r, hcg, -, -, -, hsum, -, hcalls⟩ :=
      ParallelUpdate_calls ideal p begin func halive hg hi hlt
    refine ⟨g, c, r, hcg, ?_⟩
    have hend : begin + g * c + r = p.alive := by omega
    have key := tiles_map_eq (fun s e => (RangeCall.mk s e)) begin g c r
    rw [hend] at key
    rw [hcalls]
    exact key
  · intro hpos
    obtain ⟨g, c, r, hcg, -, -, -, hsum, -, hcalls⟩ :=
      RenderAll_calls ideal p halive hg hi hpos
    refine ⟨g, c, r, hcg, ?_⟩
    have hend : 0 + g * c + r = p.alive := by omega
    have key := tiles_map_eq (fun s e => (RangeCall.mk s e)) 0 g c r
    rw [hend] at key
    simp only [Nat.zero_add] at key
    rw [hcalls]
    exact key

/-- Witness for C8: the sample pool (capacity 10, 4 live records, at most 3 groups) with
ideal group size 2: spawning 5 records, updating from index 1, and rendering. -/
theorem C8_dispatch_shape_witness :
    (∃ groupNum countPerGroup lastGroupCount,
        samplePool.CalcGroup 2 (min (samplePool.alive + 5) samplePool.maxSize
          - samplePool.alive) = some (groupNum, countPerGroup, lastGroupCount) ∧
        (samplePool.ParallelSpawn 2 5 (fun s _ _ _ => s)).calls =
          (List.range groupNum).map (fun i =>
            ({ start := samplePool.alive + i * countPerGroup,
               stop := samplePool.alive + (i + 1) * countPerGroup,
               alive := min (samplePool.alive + 5) samplePool.maxSize } : SpawnCall)) ++
          (if 0 < lastGroupCount then
            [({ start := samplePool.alive + groupNum * countPerGroup,
                stop := min (samplePool.alive + 5) samplePool.maxSize,
                alive := min (samplePool.alive + 5) samplePool.maxSize } : SpawnCall)]
           else [])) ∧
    (∃ groupNum countPerGroup lastGroupCount,
        samplePool.CalcGroup 2 (samplePool.alive - 1) =
          some (groupNum, countPerGroup, lastGroupCount) ∧
        (samplePool.ParallelUpdate 2 1 (fun s _ _ => s)).calls =
          (List.range groupNum).map (fun i =>
            ({ start := 1 + i * countPerGroup,
               stop := 1 + (i + 1) * countPerGroup } : RangeCall)) ++
          (if 0 < lastGroupCount then
            [({ start := 1 + groupNum * countPerGroup, stop := samplePool.alive } : RangeCall)]
           else [])) ∧
    (∃ groupNum countPerGroup lastGroupCount,
        samplePool.CalcGroup 2 samplePool.alive =
          some (groupNum, countPerGroup, lastGroupCount) ∧
        (samplePool.RenderAll 2).calls =
          (List.range groupNum).map (fun i =>
            ({ start := i * countPerGroup,
               stop := (i + 1) * countPerGroup } : RangeCall)) ++
          (if 0 < lastGroupCount then
            [({ start := groupNum * countPerGroup, stop := samplePool.alive } : RangeCall)]
           else [])) :=
  ⟨(C8_dispatch_shape 2 samplePool (by decide) (by decide) (by decide) (by decide)).1
      5 (fun s _ _ _ => s) (by decide) (by decide) (by decide),
   (C8_dispatch_shape 2 samplePool (by decide) (by decide) (by decide) (by decide)).2.1
      1 (fun s _ _ => s) (by decide),
   (C8_dispatch_shape 2 samplePool (by decide) (by decide) (by decide) (by decide)).2.2
      (by decide)⟩

/-- Below the ideal group size the grouping is one group holding everything. -/
theorem CalcGroup_small {α : Type} (ideal : Nat) (p : ParticlePool α) (count : Nat)
    (hc : 0 < count) (hlt : count < ideal) (h32 : count < 4294967296)
    (hg : 1 ≤ p.maxGroup) : p.CalcGroup ideal count = some (1, count, 0) := by
  have hm : min count ideal = count := Nat.min_eq_left (Nat.le_of_lt hlt)
  have hq : count / count = 1 := Nat.div_self hc
  have hmin : min 1 p.maxGroup = 1 := Nat.min_eq_left hg
  have hc0 : count ≠ 0 := by omega
  have hmul : mul32 1 count = count := by rw [mul32_of_lt (by omega)]; omega
  have hsub : sub32 count count = 0 := by rw [sub32_of_le (Nat.le_refl _) h32]; omega
  simp [ParticlePool.CalcGroup, div32, hm, hq, hmin, hc0, hmul, hsub]

theorem tiles_single (b count : Nat) : tiles b 1 count 0 = [(b, b + count)] := by
  simp [tiles, List.range_succ]

/-- C9: on a pool with `maxGroup ≥ 1`, for `0 < count < IDEAL_GROUP_COUNT` the grouping
is `groupNum = 1`, `countPerGroup = count`, `lastGroupCount = 0`, and each bulk call
over such a count (`ParallelSpawn` adding `count` slots without wrap-around,
`ParallelUpdate` over `[begin, alive)`, `RenderAll` over `[0, alive)`) invokes its
callback exactly once, on the entire range. -/
theorem C9_single_group_below_ideal {α : Type} (ideal : Nat) (p : ParticlePool α)
    (hg : 1 ≤ p.maxGroup) (hcap : p.maxSize < 4294967296)
    (halive : p.alive < 4294967296) :
    (∀ count : Nat, 0 < count → count < ideal → count < 4294967296 →
      p.CalcGroup ideal count = some (1, count, 0)) ∧
    (∀ (num : Nat) (func : List α → Nat → Nat → Nat → List α),
      p.alive + num < 4294967296 → p.alive < min (p.alive + num) p.maxSize →
      min (p.alive + num) p.maxSize - p.alive < ideal →
      (p.ParallelSpawn ideal num func).calls =
        [({ start := p.alive, stop := min (p.alive + num) p.maxSize,
            alive := min (p.alive + num) p.maxSize } : SpawnCall)]) ∧
    (∀ (begin : Nat) (func : List α → Nat → Nat → List α),
      begin < p.alive → p.alive - begin < ideal →
      (p.ParallelUpdate ideal begin func).calls =
        [({ start := begin, stop := p.alive } : RangeCall)]) ∧
    (0 < p.alive → p.alive < ideal →
      (p.RenderAll ideal).calls = [({ start := 0, stop := p.alive } : RangeCall)]) := by
  refine ⟨fun count hc hlt h32 => CalcGroup_small ideal p count hc hlt h32 hg, ?_, ?_, ?_⟩
  · intro num func hnw hpos hlt
    obtain ⟨g, c, r, hcg, -, -, -, -, -, hcalls⟩ :=
      ParallelSpawn_calls ideal p num func hcap hnw hg (by omega) hpos
    rw [CalcGroup_small ideal p _ (by omega) hlt (by omega) hg] at hcg
    simp only [Option.some.injEq, Prod.mk.injEq] at hcg
    obtain ⟨rfl, rfl, rfl⟩ := hcg
    rw [hcalls, tiles_single]
    have hend : p.alive + (min (p.alive + num) p.maxSize - p.alive) =
        min (p.alive + num) p.maxSize := by omega
    simp only [List.map_cons, List.map_nil, hend]
  · intro begin func hpos hlt
    obtain ⟨g, c, r, hcg, -, -, -, -, -, hcalls⟩ :=
      ParallelUpdate_calls ideal p begin func halive hg (by omega) hpos
    rw [CalcGroup_small ideal p _ (by omega) hlt (by omega) hg] at hcg
    simp only [Option.some.injEq, Prod.mk.injEq] at hcg
    obtain ⟨rfl, rfl, rfl⟩ := hcg
    rw [hcalls, tiles_single]
    have hend : begin + (p.alive - begin) = p.alive := by omega
    simp only [List.map_cons, List.map_nil, hend]
  · intro hpos hlt
    obtain ⟨g, c, r, hcg, -, -, -, -, -, hcalls⟩ :=
      RenderAll_calls ideal p halive hg (by omega) hpos
    rw [CalcGroup_small ideal p _ hpos hlt halive hg] at hcg
    simp only [Option.some.injEq, Prod.mk.injEq] at hcg
    obtain ⟨rfl, rfl, rfl⟩ := hcg
    rw [hcalls, tiles_single]
    simp only [List.map_cons, List.map_nil, Nat.zero_add]

/-- Witness for C9: the sample pool (capacity 10, 4 live records) with ideal group size
1024: a count of 7, a spawn of 5, an update from index 1, and a render. -/
theorem C9_single_group_below_ideal_witness :
    samplePool.CalcGroup 1024 7 = some (1, 7, 0) ∧
    (samplePool.ParallelSpawn 1024 5 (fun s _ _ _ => s)).calls =
      [({ start := samplePool.alive, stop := min (samplePool.alive + 5) samplePool.maxSize,
          alive := min (samplePool.alive + 5) samplePool.maxSize } : SpawnCall)] ∧
    (samplePool.ParallelUpdate 1024 1 (fun s _ _ => s)).calls =
      [({ start := 1, stop := samplePool.alive } : RangeCall)] ∧
    (samplePool.RenderAll 1024).calls =
      [({ start := 0, stop := samplePool.alive } : RangeCall)] :=
  ⟨(C9_single_group_below_ideal 1024 samplePool (by decide) (by decide) (by decide)).1
      7 (by decide) (by decide) (by decide),
   (C9_single_group_below_ideal 1024 samplePool (by decide) (by decide) (by decide)).2.1
      5 (fun s _ _ _ => s) (by decide) (by decide) (by decide),
   (C9_single_group_below_ideal 1024 samplePool (by decide) (by decide) (by decide)).2.2.1
      1 (fun s _ _ => s) (by decide) (by decide),
   (C9_single_group_below_ideal 1024 samplePool (by decide) (by decide) (by decide)).2.2.2
      (by decide) (by decide)⟩

/-- A spawn that cannot add a slot (`num = 0`, or a full pool) and whose sum
`alive + num` does not wrap leaves the pool as it was, writes `alive` to `begin`, and
invokes no callback. -/
theorem ParallelSpawn_noop {α : Type} (ideal : Nat) (p : ParticlePool α) (num : Nat)
    (func : List α → Nat → Nat → Nat → List α)
    (hinv : p.alive ≤ p.maxSize) (hnw : p.alive + num < 4294967296)
    (h : num = 0 ∨ p.alive = p.maxSize) :
    p.ParallelSpawn ideal num func =
      { pool := p, begin := p.alive, calls := [], fault := false } := by
  have hmin : min (add32 p.alive num) p.maxSize = p.alive := by
    rw [add32_of_lt hnw]; omega
  have hzero : sub32 p.alive p.alive = 0 := by
    rw [sub32_of_le (Nat.le_refl _) (by omega)]; omega
  unfold ParticlePool.ParallelSpawn
  simp only [hmin, hzero, if_true]

/-- C10 (evaluation at the failing input): on a full pool (10 live records of capacity
10) `ParallelSpawn` with `num = 4294967295` computes `alive + num = 9` modulo `2^32`, so
`alive` drops to 9, the count `9 - 10` wraps to `4294967295`, and five callbacks are
invoked. -/
theorem C10_full_pool_spawn_wraps :
    (ParticlePool.ParallelSpawn 1024
        ({ alive := 10, maxSize := 10, particles := [], maxGroup := 4 } : ParticlePool Nat)
        4294967295 (fun s _ _ _ => s)).pool.alive = 9 ∧
    (ParticlePool.ParallelSpawn 1024
        ({ alive := 10, maxSize := 10, particles := [], maxGroup := 4 } : ParticlePool Nat)
        4294967295 (fun s _ _ _ => s)).calls =
      [⟨10, 1073741833, 9⟩, ⟨1073741833, 2147483656, 9⟩, ⟨2147483656, 3221225479, 9⟩,
       ⟨3221225479, 6, 9⟩, ⟨6, 9, 9⟩] := by
  decide

/-! ## Frame lemmas and ranges of the invocations -/

/-- The pool left by `ParallelUpdate` differs from the pool before in its records only. -/
theorem ParallelUpdate_frame {α : Type} (ideal : Nat) (p : ParticlePool α) (begin : Nat)
    (func : List α → Nat → Nat → List α) :
    (p.ParallelUpdate ideal begin func).pool.alive = p.alive ∧
    (p.ParallelUpdate ideal begin func).pool.maxSize = p.maxSize ∧
    (p.ParallelUpdate ideal begin func).pool.maxGroup = p.maxGroup := by
  unfold ParticlePool.ParallelUpdate
  simp only
  split
  · exact ⟨rfl, rfl, rfl⟩
  · split
    · exact ⟨rfl, rfl, rfl⟩
    · exact ⟨rfl, rfl, rfl⟩

/-- The pool left by `RenderAll` is the pool before. -/
theorem RenderAll_pool {α : Type} (ideal : Nat) (p : ParticlePool α) :
    (p.RenderAll ideal).pool = p := by
  unfold ParticlePool.RenderAll
  split
  · rfl
  · split
    · rfl
    · rfl

/-- An update on a pool whose grouping faults makes no callback invocation. -/
theorem ParallelUpdate_calls_of_fault {α : Type} (ideal : Nat) (p : ParticlePool α)
    (begin : Nat) (func : List α → Nat → Nat → List α) (h : ideal = 0 ∨ p.maxGroup = 0) :
    (p.ParallelUpdate ideal begin func).calls = [] := by
  unfold ParticlePool.ParallelUpdate
  simp only
  split
  · rfl
  · rw [CalcGroup_none ideal p _ h]

/-- The records left by `ParallelSpawn` are the callback applied along the invocations. -/
theorem ParallelSpawn_particles {α : Type} (ideal : Nat) (p : ParticlePool α) (num : Nat)
    (func : List α → Nat → Nat → Nat → List α) :
    (p.ParallelSpawn ideal num func).pool.particles =
      (p.ParallelSpawn ideal num func).calls.foldl
        (fun s c => func s c.start c.stop c.alive) p.particles := by
  unfold ParticlePool.ParallelSpawn
  simp only
  split
  · rfl
  · split
    · rfl
    · rfl

/-- Without wrap-around, on a pool with `alive ≤ maxSize`, every invocation of
`ParallelSpawn` gets a non-empty range inside `[old, new alive)` and the new `alive` as
its fourth argument. -/
theorem ParallelSpawn_calls_bounds {α : Type} (ideal : Nat) (p : ParticlePool α) (num : Nat)
    (func : List α → Nat → Nat → Nat → List α)
    (hinv : p.alive ≤ p.maxSize) (hcap : p.maxSize < 4294967296)
    (hnw : p.alive + num < 4294967296) :
    ∀ c ∈ (p.ParallelSpawn ideal num func).calls,
      p.alive ≤ c.start ∧ c.start < c.stop ∧ c.stop ≤ min (p.alive + num) p.maxSize ∧
      c.alive = min (p.alive + num) p.maxSize := by
  intro c hc
  by_cases hf : ideal = 0 ∨ p.maxGroup = 0
  · rw [ParallelSpawn_calls_of_fault ideal p num func hf] at hc
    exact absurd hc (List.not_mem_nil c)
  · by_cases hroom : p.alive < min (p.alive + num) p.maxSize
    · obtain ⟨g, k, r, -, -, -, hk1, hsum, -, hcalls⟩ :=
        ParallelSpawn_calls ideal p num func hcap hnw (by omega) (by omega) hroom
      rw [hcalls, List.mem_map] at hc
      obtain ⟨t, ht, rfl⟩ := hc
      have hne := tiles_nonempty p.alive g k r hk1 t ht
      have hcov := (tiles_cover p.alive g k r t.1 hk1).1 ⟨t, ht, Nat.le_refl _, hne⟩
      have hcov2 := (tiles_cover p.alive g k r (t.2 - 1) hk1).1 ⟨t, ht, by omega, by omega⟩
      have hhi : t.2 ≤ min (p.alive + num) p.maxSize := by omega
      exact ⟨hcov.1, hne, hhi, rfl⟩
    · rw [ParallelSpawn_noop ideal p num func hinv hnw (by omega)] at hc
      exact absurd hc (List.not_mem_nil c)

/-- With `begin ≤ alive`, every invocation of `ParallelUpdate` gets a non-empty range
inside `[begin, alive)`. -/
theorem ParallelUpdate_calls_bounds {α : Type} (ideal : Nat) (p : ParticlePool α)
    (begin : Nat) (func : List α → Nat → Nat → List α)
    (halive : p.alive < 4294967296) (hb : begin ≤ p.alive) :
    ∀ c ∈ (p.ParallelUpdate ideal begin func).calls,
      begin ≤ c.start ∧ c.start < c.stop ∧ c.stop ≤ p.alive := by
  intro c hc
  by_cases hf : ideal = 0 ∨ p.maxGroup = 0
  · rw [ParallelUpdate_calls_of_fault ideal p begin func hf] at hc
    exact absurd hc (List.not_mem_nil c)
  · by_cases hlt : begin < p.alive
    · obtain ⟨g, k, r, -, -, -, hk1, hsum, -, hcalls⟩ :=
        ParallelUpdate_calls ideal p begin func halive (by omega) (by omega) hlt
      rw [hcalls, List.mem_map] at hc
      obtain ⟨t, ht, rfl⟩ := hc
      have hne := tiles_nonempty begin g k r hk1 t ht
      have hcov := (tiles_cover begin g k r t.1 hk1).1 ⟨t, ht, Nat.le_refl _, hne⟩
      have hcov2 := (tiles_cover begin g k r (t.2 - 1) hk1).1 ⟨t, ht, by omega, by omega⟩
      simp only
      omega
    · have hzero : sub32 p.alive begin = 0 := by
        rw [sub32_of_le hb halive]; omega
      unfold ParticlePool.ParallelUpdate at hc
      simp only [hzero, if_true] at hc
      exact absurd hc (List.not_mem_nil c)

/-! ## Claims about the callback arguments, the traversal and the invariant -/

/-- C11 (evaluation at the failing input): with 8 live records of capacity 10 and
`num = 4294967290` the sum `alive + num` wraps to 2.  Every callback gets the post-spawn
`alive = 2` as its fourth argument, but the ranges end far beyond it (the first is
`[8, 1073741830)`), and 2 is not `min (8 + 4294967290) 10 = 10`. -/
theorem C11_spawn_range_exceeds_alive_on_wrap :
    (ParticlePool.ParallelSpawn 1024
        ({ alive := 8, maxSize := 10, particles := [], maxGroup := 4 } : ParticlePool Nat)
        4294967290 (fun s _ _ _ => s)).pool.alive = 2 ∧
    (ParticlePool.ParallelSpawn 1024
        ({ alive := 8, maxSize := 10, particles := [], maxGroup := 4 } : ParticlePool Nat)
        4294967290 (fun s _ _ _ => s)).calls.map (fun c => (c.stop, c.alive)) =
      [(1073741830, 2), (2147483652, 2), (3221225474, 2), (0, 2), (2, 2)] ∧
    ¬ ∀ c ∈ (ParticlePool.ParallelSpawn 1024
        ({ alive := 8, maxSize := 10, particles := [], maxGroup := 4 } : ParticlePool Nat)
        4294967290 (fun s _ _ _ => s)).calls, c.stop ≤ c.alive := by
  decide

/-- C12: on a pool with `maxGroup ≥ 1` and `alive > 0`, `RenderAll` does not fault and
invokes its callback on the ranges given by the grouping `CalcGroup alive` laid out from
index 0; they are pairwise disjoint, their union is exactly `[0, alive)`, and none of them
reaches an index `≥ alive`. -/
theorem C12_render_ranges_partition {α : Type} (ideal : Nat) (p : ParticlePool α)
    (hg : 1 ≤ p.maxGroup) (hi : 1 ≤ ideal) (halive : p.alive < 4294967296)
    (hpos : 0 < p.alive) :
    (p.RenderAll ideal).fault = false ∧
    Partition ((p.RenderAll ideal).calls.map RangeCall.range) 0 p.alive ∧
    (∃ groupNum countPerGroup lastGroupCount,
      p.CalcGroup ideal p.alive = some (groupNum, countPerGroup, lastGroupCount) ∧
      (p.RenderAll ideal).calls.map RangeCall.range =
        tiles 0 groupNum countPerGroup lastGroupCount) ∧
    ∀ c ∈ (p.RenderAll ideal).calls, c.start < c.stop ∧ c.stop ≤ p.alive := by
  obtain ⟨g, c, r, hcg, -, -, hc1, hsum, hfault, hcalls⟩ :=
    RenderAll_calls ideal p halive hg hi hpos
  have hmap : (p.RenderAll ideal).calls.map RangeCall.range = tiles 0 g c r := by
    rw [hcalls, map_range_call]
  have hend : p.alive = 0 + g * c + r := by omega
  refine ⟨hfault, ?_, ⟨g, c, r, hcg, hmap⟩, ?_⟩
  · rw [hmap]
    have hp := partition_of_tiles 0 g c r hc1
    rw [← hend] at hp
    exact hp
  · intro x hx
    have hx2 : x.range ∈ tiles 0 g c r := by
      rw [← hmap]; exact List.mem_map_of_mem _ hx
    have hne := tiles_nonempty 0 g c r hc1 x.range hx2
    have hcov := (tiles_cover 0 g c r (x.range.2 - 1) hc1).1
      ⟨x.range, hx2, by omega, by omega⟩
    have h1 : x.range.1 = x.start := rfl
    have h2 : x.range.2 = x.stop := rfl
    omega

/-- Witness for C12: the sample pool (4 live records, at most 3 groups), ideal group
size 2. -/
theorem C12_render_ranges_partition_witness :
    (samplePool.RenderAll 2).fault = false ∧
    Partition ((samplePool.RenderAll 2).calls.map RangeCall.range) 0 samplePool.alive ∧
    (∃ groupNum countPerGroup lastGroupCount,
      samplePool.CalcGroup 2 samplePool.alive =
        some (groupNum, countPerGroup, lastGroupCount) ∧
      (samplePool.RenderAll 2).calls.map RangeCall.range =
        tiles 0 groupNum countPerGroup lastGroupCount) ∧
    ∀ c ∈ (samplePool.RenderAll 2).calls, c.start < c.stop ∧ c.stop ≤ samplePool.alive :=
  C12_render_ranges_partition 2 samplePool (by decide) (by decide) (by decide) (by decide)

/-- C13: on a pool with `alive = 0`, `RenderAll` returns at once: no callback invocation
and no division (no fault), whatever `maxSize`, `maxGroup` and `IDEAL_GROUP_COUNT` are. -/
theorem C13_render_empty_pool {α : Type} (ideal : Nat) (p : ParticlePool α)
    (h : p.alive = 0) :
    (p.RenderAll ideal).calls = [] ∧ (p.RenderAll ideal).fault = false := by
  unfold ParticlePool.RenderAll
  rw [if_pos h]
  exact ⟨rfl, rfl⟩

/-- Witness for C13: an empty pool of capacity 7 whose `maxGroup` is 0, with
`IDEAL_GROUP_COUNT = 0`. -/
theorem C13_render_empty_pool_witness :
    (ParticlePool.RenderAll 0
      ({ alive := 0, maxSize := 7, particles := [], maxGroup := 0 } : ParticlePool Nat)).calls
      = [] ∧
    (ParticlePool.RenderAll 0
      ({ alive := 0, maxSize := 7, particles := [], maxGroup := 0 } : ParticlePool Nat)).fault
      = false :=
  C13_render_empty_pool 0
    ({ alive := 0, maxSize := 7, particles := [], maxGroup := 0 } : ParticlePool Nat) rfl

/-- C14 (counterexample): with 4 live records, `ParallelUpdate` from `begin = 6` computes
`count = 4 - 6`, which wraps to `4294967294`, and invokes the callback four times, on
ranges that are not inside `[6, 4)`. -/
theorem C14_update_begin_past_alive :
    (ParticlePool.ParallelUpdate 1024
        ({ alive := 4, maxSize := 10, particles := [], maxGroup := 3 } : ParticlePool Nat)
        6 (fun s _ _ => s)).calls =
      [⟨6, 1431655770⟩, ⟨1431655770, 2863311534⟩, ⟨2863311534, 2⟩, ⟨2, 4⟩] := by
  decide

/-- C14 (amended): for a 32-bit `alive` and `begin ≤ alive`, every range `ParallelUpdate`
passes to the callback is a non-empty range inside `[begin, alive)`; when
`begin = alive` the callback is not invoked and nothing is divided. -/
theorem C14_update_ranges_within {α : Type} (ideal : Nat) (p : ParticlePool α)
    (begin : Nat) (func : List α → Nat → Nat → List α)
    (halive : p.alive < 4294967296) (hb : begin ≤ p.alive) :
    (∀ c ∈ (p.ParallelUpdate ideal begin func).calls,
      begin ≤ c.start ∧ c.start < c.stop ∧ c.stop ≤ p.alive) ∧
    (begin = p.alive →
      (p.ParallelUpdate ideal begin func).calls = [] ∧
      (p.ParallelUpdate ideal begin func).fault = false) := by
  refine ⟨ParallelUpdate_calls_bounds ideal p begin func halive hb, ?_⟩
  intro heq
  have hzero : sub32 p.alive begin = 0 := by
    rw [sub32_of_le hb halive]; omega
  unfold ParticlePool.ParallelUpdate
  simp only [hzero, if_true, and_self]

/-- Witness for C14 (amended): the sample pool (4 live records), updated from index 1 and
from index 4. -/
theorem C14_update_ranges_within_witness :
    (∀ c ∈ (samplePool.ParallelUpdate 2 1 (fun s _ _ => s)).calls,
      1 ≤ c.start ∧ c.start < c.stop ∧ c.stop ≤ samplePool.alive) ∧
    (samplePool.ParallelUpdate 2 4 (fun s _ _ => s)).calls = [] ∧
    (samplePool.ParallelUpdate 2 4 (fun s _ _ => s)).fault = false :=
  ⟨(C14_update_ranges_within 2 samplePool 1 (fun s _ _ => s) (by decide) (by decide)).1,
   (C14_update_ranges_within 2 samplePool 4 (fun s _ _ => s) (by decide) (by decide)).2 rfl⟩

/-- C15: `Event(begin, func)` invokes `func` exactly once, with `(storage, begin, alive)`,
for every pool and every `begin` (also when `begin = alive`, and whatever `maxGroup` is);
the records afterwards are what that one call returns, and `alive`, `maxSize` and
`maxGroup` are unchanged. -/
theorem C15_event_single_call {α : Type} (p : ParticlePool α) (begin : Nat)
    (func : List α → Nat → Nat → List α) :
    (p.Event begin func).calls = [({ start := begin, stop := p.alive } : RangeCall)] ∧
    (p.Event begin func).calls.length = 1 ∧
    (p.Event begin func).pool.particles = func p.particles begin p.alive ∧
    (p.Event begin func).pool.alive = p.alive ∧
    (p.Event begin func).pool.maxSize = p.maxSize ∧
    (p.Event begin func).pool.maxGroup = p.maxGroup :=
  ⟨rfl, rfl, rfl, rfl, rfl, rfl⟩

/-- C16: `alive ≤ maxSize` holds for a newly created pool and is preserved by `Resize`,
by `Recycle(beginPos)` with `beginPos ≤ alive`, by `Reset`, by `ParallelSpawn` for every
`num`, by `ParallelUpdate`, by `Event` and by `RenderAll`. -/
theorem C16_alive_le_maxSize_invariant {α : Type} [Inhabited α] (p : ParticlePool α)
    (hinv : p.Inv) :
    (∀ maxGroup : Nat, (ParticlePool.create α maxGroup).Inv) ∧
    (∀ size : Nat, (p.Resize size).Inv) ∧
    (∀ beginPos : Nat, beginPos ≤ p.alive → (p.Recycle beginPos).Inv) ∧
    p.Reset.Inv ∧
    (∀ (ideal num : Nat) (func : List α → Nat → Nat → Nat → List α),
      (p.ParallelSpawn ideal num func).pool.Inv) ∧
    (∀ (ideal begin : Nat) (func : List α → Nat → Nat → List α),
      (p.ParallelUpdate ideal begin func).pool.Inv) ∧
    (∀ (begin : Nat) (func : List α → Nat → Nat → List α), (p.Event begin func).pool.Inv) ∧
    (∀ ideal : Nat, (p.RenderAll ideal).pool.Inv) := by
  unfold ParticlePool.Inv at hinv
  refine ⟨?_, ?_, ?_, ?_, ?_, ?_, ?_, ?_⟩
  · intro maxGroup
    exact Nat.le_refl 0
  · intro size
    exact Nat.min_le_right p.alive size
  · intro beginPos hle
    exact Nat.le_trans hle hinv
  · exact Nat.zero_le p.maxSize
  · intro ideal num func
    obtain ⟨-, h2, h3, -⟩ := ParallelSpawn_bookkeeping ideal p num func
    unfold ParticlePool.Inv
    rw [h2, h3]
    exact Nat.min_le_right _ _
  · intro ideal begin func
    obtain ⟨h1, h2, -⟩ := ParallelUpdate_frame ideal p begin func
    unfold ParticlePool.Inv
    rw [h1, h2]
    exact hinv
  · intro begin func
    exact hinv
  · intro ideal
    rw [RenderAll_pool]
    exact hinv

/-- Witness for C16: the sample pool (4 live records of capacity 10). -/
theorem C16_alive_le_maxSize_invariant_witness :
    (samplePool.Resize 2).Inv ∧ (samplePool.Recycle 3).Inv ∧ samplePool.Reset.Inv ∧
    (samplePool.ParallelSpawn 2 4294967295 (fun s _ _ _ => s)).pool.Inv :=
  ⟨(C16_alive_le_maxSize_invariant samplePool (by decide)).2.1 2,
   (C16_alive_le_maxSize_invariant samplePool (by decide)).2.2.1 3 (by decide),
   (C16_alive_le_maxSize_invariant samplePool (by decide)).2.2.2.1,
   (C16_alive_le_maxSize_invariant samplePool (by decide)).2.2.2.2.1 2 4294967295
     (fun s _ _ _ => s)⟩

/-- C17: `ParallelUpdate` (for every `begin` and every callback) and `RenderAll` leave
`alive`, `maxSize` and `maxGroup` as they were, `RenderAll` leaving the whole pool as it
was; `ParallelSpawn` leaves `maxSize` and `maxGroup` as they were. -/
theorem C17_bulk_calls_frame {α : Type} (ideal : Nat) (p : ParticlePool α) :
    (∀ (begin : Nat) (func : List α → Nat → Nat → List α),
      (p.ParallelUpdate ideal begin func).pool.alive = p.alive ∧
      (p.ParallelUpdate ideal begin func).pool.maxSize = p.maxSize ∧
      (p.ParallelUpdate ideal begin func).pool.maxGroup = p.maxGroup) ∧
    ((p.RenderAll ideal).pool = p) ∧
    (∀ (num : Nat) (func : List α → Nat → Nat → Nat → List α),
      (p.ParallelSpawn ideal num func).pool.maxSize = p.maxSize ∧
      (p.ParallelSpawn ideal num func).pool.maxGroup = p.maxGroup) :=
  ⟨fun begin func => ParallelUpdate_frame ideal p begin func,
   RenderAll_pool ideal p,
   fun num func => (ParallelSpawn_bookkeeping ideal p num func).2.2⟩

/-! ## End-to-end initialisation and recycling -/

/-- The loop of `initFn` after `n` rounds: the length is kept, and record `i` holds `i`
for the indices `a ≤ i < a + n` inside the storage. -/
theorem initFn_loop (s : List Nat) (a n : Nat) :
    ((List.range n).foldl (fun acc k => acc.set (a + k) (a + k)) s).length = s.length ∧
    ∀ i, ((List.range n).foldl (fun acc k => acc.set (a + k) (a + k)) s)[i]? =
      if a ≤ i ∧ i < a + n then (if i < s.length then some i else none) else s[i]? := by
  induction n with
  | zero =>
    refine ⟨rfl, fun i => ?_⟩
    have h : ¬ (a ≤ i ∧ i < a + 0) := by omega
    rw [if_neg h]
    rfl
  | succ n ih =>
    obtain ⟨hlen, hget⟩ := ih
    rw [List.range_succ, List.foldl_append, List.foldl_cons, List.foldl_nil]
    refine ⟨by rw [List.length_set, hlen], fun i => ?_⟩
    rw [List.getElem?_set, hlen, hget i]
    by_cases h1 : a + n = i
    · have h3 : a ≤ i ∧ i < a + (n + 1) := by omega
      rw [if_pos h1, if_pos h3, h1]
    · rw [if_neg h1]
      by_cases h2 : a ≤ i ∧ i < a + n
      · have h3 : a ≤ i ∧ i < a + (n + 1) := by omega
        rw [if_pos h2, if_pos h3]
      · have h3 : ¬ (a ≤ i ∧ i < a + (n + 1)) := by omega
        rw [if_neg h2, if_neg h3]

theorem initFn_length (s : List Nat) (a b x : Nat) : (initFn s a b x).length = s.length :=
  (initFn_loop s a (b - a)).1

theorem initFn_getElem? (s : List Nat) (a b x i : Nat) :
    (initFn s a b x)[i]? =
      if a ≤ i ∧ i < b then (if i < s.length then some i else none) else s[i]? := by
  unfold initFn
  rw [(initFn_loop s a (b - a)).2 i]
  by_cases h : a ≤ i ∧ i < b
  · have h3 : a ≤ i ∧ i < a + (b - a) := by omega
    rw [if_pos h, if_pos h3]
  · have h3 : ¬ (a ≤ i ∧ i < a + (b - a)) := by omega
    rw [if_neg h, if_neg h3]

/-- Applying `initFn` along a list of invocations: an index covered by one of the ranges
holds its own value, any other record is as before. -/
theorem foldl_initFn (cs : List SpawnCall) :
    ∀ (s : List Nat) (i : Nat),
      ((∃ c ∈ cs, c.start ≤ i ∧ i < c.stop) →
        (cs.foldl (fun s c => initFn s c.start c.stop c.alive) s)[i]? =
          if i < s.length then some i else none) ∧
      ((¬ ∃ c ∈ cs, c.start ≤ i ∧ i < c.stop) →
        (cs.foldl (fun s c => initFn s c.start c.stop c.alive) s)[i]? = s[i]?) := by
  induction cs with
  | nil =>
    intro s i
    refine ⟨fun h => ?_, fun _ => rfl⟩
    obtain ⟨c, hc, -⟩ := h
    exact absurd hc (List.not_mem_nil c)
  | cons c cs ih =>
    intro s i
    rw [List.foldl_cons]
    obtain ⟨ih1, ih2⟩ := ih (initFn s c.start c.stop c.alive) i
    rw [initFn_length] at ih1
    by_cases hrest : ∃ d ∈ cs, d.start ≤ i ∧ i < d.stop
    · refine ⟨fun _ => ih1 hrest, fun hno => ?_⟩
      obtain ⟨d, hd, hin⟩ := hrest
      exact absurd ⟨d, List.mem_cons_of_mem c hd, hin⟩ hno
    · rw [ih2 hrest, initFn_getElem?]
      constructor
      · intro h
        obtain ⟨d, hd, hin⟩ := h
        rcases List.mem_cons.1 hd with rfl | hd
        · rw [if_pos hin]
        · exact absurd ⟨d, hd, hin⟩ hrest
      · intro hno
        rw [if_neg (fun hin => hno ⟨c, List.mem_cons_self c cs, hin⟩)]

theorem partition_nil (b : Nat) : Partition [] b b := by
  refine ⟨List.Pairwise.nil, fun i => ⟨?_, ?_⟩⟩
  · rintro ⟨t, ht, -⟩
    exact absurd ht (List.not_mem_nil t)
  · intro h
    omega

/-- C18: on a fresh pool (with `maxGroup ≥ 1`) after `Resize(n)`, for a 32-bit `n` and
`num ≤ n`, `ParallelSpawn(num, begin, initFn)` does not fault and leaves `begin = 0` and
`Alive() = num`; record `i` holds `i` for every `i < num`; every record at an index
`≥ num` is as `Resize` left it; and the ranges handed to `initFn` are pairwise disjoint
with union `[0, num)`, so each index below `num` is written by exactly one invocation. -/
theorem C18_end_to_end_init (ideal maxGroup n num : Nat)
    (hi : 1 ≤ ideal) (hg : 1 ≤ maxGroup) (hn : n < 4294967296) (hnum : num ≤ n) :
    (((ParticlePool.create Nat maxGroup).Resize n).ParallelSpawn ideal num initFn).fault
      = false ∧
    (((ParticlePool.create Nat maxGroup).Resize n).ParallelSpawn ideal num initFn).begin
      = 0 ∧
    (((ParticlePool.create Nat maxGroup).Resize n).ParallelSpawn ideal num initFn).pool.Alive
      = num ∧
    (∀ i, i < num →
      (((ParticlePool.create Nat maxGroup).Resize n).ParallelSpawn ideal num
        initFn).pool.particles[i]? = some i) ∧
    (∀ i, num ≤ i →
      (((ParticlePool.create Nat maxGroup).Resize n).ParallelSpawn ideal num
        initFn).pool.particles[i]? =
      ((ParticlePool.create Nat maxGroup).Resize n).particles[i]?) ∧
    Partition
      ((((ParticlePool.create Nat maxGroup).Resize n).ParallelSpawn ideal num
        initFn).calls.map SpawnCall.range) 0 num := by
  generalize hp : (ParticlePool.create Nat maxGroup).Resize n = p0
  have ha : p0.alive = 0 := by
    rw [← hp]; exact Nat.zero_min n
  have hm : p0.maxSize = n := by rw [← hp]; rfl
  have hmg : p0.maxGroup = maxGroup := by rw [← hp]; rfl
  have hlen : p0.particles.length = n := by
    rw [← hp]; simp [ParticlePool.Resize, ParticlePool.create]
  obtain ⟨hb1, hb2, -, -⟩ := ParallelSpawn_bookkeeping ideal p0 num initFn
  have hnw : p0.alive + num < 4294967296 := by omega
  rw [add32_of_lt hnw] at hb2
  have halive : (p0.ParallelSpawn ideal num initFn).pool.alive = num := by
    rw [hb2]; omega
  have hpart := ParallelSpawn_particles ideal p0 num initFn
  by_cases hz : num = 0
  · have hnoop := ParallelSpawn_noop ideal p0 num initFn (by omega) hnw (Or.inl hz)
    rw [hnoop]
    subst hz
    refine ⟨rfl, ha, ha, fun i hlt => absurd hlt (Nat.not_lt_zero i), fun i _ => rfl, ?_⟩
    exact partition_nil 0
  · obtain ⟨g, c, r, -, -, -, hc1, hsum, hfault, hcalls⟩ :=
      ParallelSpawn_calls ideal p0 num initFn (by omega) hnw (by omega) hi (by omega)
    have hP : Partition ((p0.ParallelSpawn ideal num initFn).calls.map SpawnCall.range)
        0 num := by
      rw [hcalls, map_range_spawn, ha]
      have hend : num = 0 + g * c + r := by omega
      have hp1 := partition_of_tiles 0 g c r hc1
      rw [← hend] at hp1
      exact hp1
    have hcov : ∀ i, (∃ x ∈ (p0.ParallelSpawn ideal num initFn).calls,
        x.start ≤ i ∧ i < x.stop) ↔ i < num := by
      intro i
      constructor
      · rintro ⟨x, hx, hin⟩
        exact ((hP.2 i).1 ⟨x.range, List.mem_map_of_mem _ hx, hin⟩).2
      · intro h
        obtain ⟨t, ht, hin⟩ := (hP.2 i).2 ⟨Nat.zero_le i, h⟩
        obtain ⟨x, hx, rfl⟩ := List.mem_map.1 ht
        exact ⟨x, hx, hin⟩
    refine ⟨hfault, by rw [hb1, ha], halive, ?_, ?_, hP⟩
    · intro i hlt
      have hin : i < p0.particles.length := by omega
      rw [hpart, (foldl_initFn _ p0.particles i).1 ((hcov i).2 hlt), if_pos hin]
    · intro i hge
      rw [hpart, (foldl_initFn _ p0.particles i).2 (fun h => by
        have := (hcov i).1 h
        omega)]

/-- Witness for C18: capacity 100, 50 records spawned, at most 4 groups, ideal group
size 8. -/
theorem C18_end_to_end_init_witness :
    (((ParticlePool.create Nat 4).Resize 100).ParallelSpawn 8 50 initFn).fault = false ∧
    (((ParticlePool.create Nat 4).Resize 100).ParallelSpawn 8 50 initFn).begin = 0 ∧
    (((ParticlePool.create Nat 4).Resize 100).ParallelSpawn 8 50 initFn).pool.Alive = 50 ∧
    (∀ i, i < 50 →
      (((ParticlePool.create Nat 4).Resize 100).ParallelSpawn 8 50
        initFn).pool.particles[i]? = some i) ∧
    (∀ i, 50 ≤ i →
      (((ParticlePool.create Nat 4).Resize 100).ParallelSpawn 8 50
        initFn).pool.particles[i]? =
      ((ParticlePool.create Nat 4).Resize 100).particles[i]?) ∧
    Partition
      ((((ParticlePool.create Nat 4).Resize 100).ParallelSpawn 8 50
        initFn).calls.map SpawnCall.range) 0 50 :=
  C18_end_to_end_init 8 4 100 50 (by decide) (by decide) (by decide) (by decide)

/-- C19: for `beginPos ≤ alive`, `Recycle(beginPos)` sets `alive` to `beginPos` and
changes neither `maxSize` nor `maxGroup` nor any record; a following `ParallelSpawn` of
`k` records with `beginPos + k ≤ maxSize` writes `beginPos` to `begin` and leaves
`alive = beginPos + k`. -/
theorem C19_recycle_then_spawn {α : Type} (ideal : Nat) (p : ParticlePool α)
    (beginPos k : Nat) (func : List α → Nat → Nat → Nat → List α)
    (_hpre : beginPos ≤ p.alive) (hk : beginPos + k ≤ p.maxSize)
    (hcap : p.maxSize < 4294967296) :
    (p.Recycle beginPos).alive = beginPos ∧
    (p.Recycle beginPos).maxSize = p.maxSize ∧
    (p.Recycle beginPos).maxGroup = p.maxGroup ∧
    (p.Recycle beginPos).particles = p.particles ∧
    ((p.Recycle beginPos).ParallelSpawn ideal k func).begin = beginPos ∧
    ((p.Recycle beginPos).ParallelSpawn ideal k func).pool.Alive = beginPos + k := by
  obtain ⟨h1, h2, -, -⟩ := ParallelSpawn_bookkeeping ideal (p.Recycle beginPos) k func
  have ha : (p.Recycle beginPos).alive = beginPos := rfl
  have hm : (p.Recycle beginPos).maxSize = p.maxSize := rfl
  refine ⟨rfl, rfl, rfl, rfl, by rw [h1, ha], ?_⟩
  unfold ParticlePool.Alive
  rw [h2, ha, hm, add32_of_lt (by omega)]
  omega

/-- Witness for C19: 10 live records of capacity 16, `Recycle(3)`, then a spawn of 4:
`begin` is 3 and `alive` is 7. -/
theorem C19_recycle_then_spawn_witness :
    (ParticlePool.Recycle
      ({ alive := 10, maxSize := 16, particles := [], maxGroup := 4 } : ParticlePool Nat)
      3).alive = 3 ∧
    ((ParticlePool.Recycle
      ({ alive := 10, maxSize := 16, particles := [], maxGroup := 4 } : ParticlePool Nat)
      3).ParallelSpawn 1024 4 (fun s _ _ _ => s)).begin = 3 ∧
    ((ParticlePool.Recycle
      ({ alive := 10, maxSize := 16, particles := [], maxGroup := 4 } : ParticlePool Nat)
      3).ParallelSpawn 1024 4 (fun s _ _ _ => s)).pool.Alive = 3 + 4 :=
  ⟨(C19_recycle_then_spawn 1024
      ({ alive := 10, maxSize := 16, particles := [], maxGroup := 4 } : ParticlePool Nat)
      3 4 (fun s _ _ _ => s) (by decide) (by decide) (by decide)).1,
   (C19_recycle_then_spawn 1024
      ({ alive := 10, maxSize := 16, particles := [], maxGroup := 4 } : ParticlePool Nat)
      3 4 (fun s _ _ _ => s) (by decide) (by decide) (by decide)).2.2.2.2.1,
   (C19_recycle_then_spawn 1024
      ({ alive := 10, maxSize := 16, particles := [], maxGroup := 4 } : ParticlePool Nat)
      3 4 (fun s _ _ _ => s) (by decide) (by decide) (by decide)).2.2.2.2.2⟩

/-- C20: for every pool, `Reset()` gives exactly the pool that `Recycle(0)` gives:
`alive` is 0, and `maxSize`, `maxGroup` and the records are those of the pool before. -/
theorem C20_reset_eq_recycle_zero {α : Type} (p : ParticlePool α) :
    p.Reset = p.Recycle 0 ∧
    p.Reset.alive = 0 ∧
    p.Reset.maxSize = p.maxSize ∧
    p.Reset.maxGroup = p.maxGroup ∧
    p.Reset.particles = p.particles :=
  ⟨rfl, rfl, rfl, rfl, rfl⟩

/-! ## Storage on resize, and finer facts about the grouping -/

/-- C21: on a pool whose storage holds `maxSize` records, `Resize(newSize)` makes
`Size()` equal to `newSize` (and the storage `newSize` long), makes `alive` equal to
`min alive newSize` (so it is unchanged unless the pool shrank below it), and keeps the
value of every record at an index below `min maxSize newSize`. -/
theorem C21_resize_frame {α : Type} [Inhabited α] (p : ParticlePool α) (size : Nat)
    (hlen : p.particles.length = p.maxSize) :
    (p.Resize size).Size = size ∧
    (p.Resize size).particles.length = size ∧
    (p.Resize size).Alive = min p.alive size ∧
    (p.alive ≤ size → (p.Resize size).Alive = p.alive) ∧
    (p.Resize size).maxGroup = p.maxGroup ∧
    ∀ i, i < min p.maxSize size → (p.Resize size).particles[i]? = p.particles[i]? := by
  refine ⟨rfl, ?_, rfl, ?_, rfl, ?_⟩
  · show (p.particles.take size ++
      List.replicate (size - p.particles.length) default).length = size
    rw [List.length_append, List.length_take, List.length_replicate]
    omega
  · intro hle
    show min p.alive size = p.alive
    omega
  · intro i hi
    show (p.particles.take size ++
      List.replicate (size - p.particles.length) default)[i]? = p.particles[i]?
    have h1 : i < (p.particles.take size).length := by
      rw [List.length_take]; omega
    rw [List.getElem?_append_left h1, List.getElem?_take_of_lt (by omega)]

/-- Witness for C21: the sample pool (capacity 10, 4 live records) resized to 3. -/
theorem C21_resize_frame_witness :
    (samplePool.Resize 3).Size = 3 ∧
    (samplePool.Resize 3).particles.length = 3 ∧
    (samplePool.Resize 3).Alive = min samplePool.alive 3 ∧
    (samplePool.alive ≤ 3 → (samplePool.Resize 3).Alive = samplePool.alive) ∧
    (samplePool.Resize 3).maxGroup = samplePool.maxGroup ∧
    ∀ i, i < min samplePool.maxSize 3 →
      (samplePool.Resize 3).particles[i]? = samplePool.particles[i]? :=
  C21_resize_frame samplePool 3 (by decide)

/-- C23: the trailing group is not bounded by the regular group size: with ideal group
size 2, at most 40 groups and 100 items the grouping is 40 groups of 2 and a trailing
group of 20. -/
theorem C23_remainder_may_exceed_countPerGroup :
    ∃ (ideal maxGroup count : Nat), 0 < count ∧ 1 ≤ maxGroup ∧ 1 ≤ ideal ∧
      ∃ groupNum countPerGroup lastGroupCount,
        ParticlePool.CalcGroup ideal
          ({ alive := count, maxSize := count, particles := [], maxGroup := maxGroup }
            : ParticlePool Nat) count = some (groupNum, countPerGroup, lastGroupCount) ∧
        countPerGroup ≤ lastGroupCount :=
  ⟨2, 40, 100, by decide, by decide, by decide, 40, 2, 20, by decide, by decide⟩

/-- C24 (counterexample): with ideal group size 1024 and at most 4 groups, spawning 2049
records into an empty pool dispatches two tasks of 1024 records and a trailing task of a
single record, `[2048, 2049)`: not every task covers at least 1024 records. -/
theorem C24_trailing_task_below_ideal :
    (ParticlePool.ParallelSpawn 1024
        ({ alive := 0, maxSize := 4096, particles := [], maxGroup := 4 } : ParticlePool Nat)
        2049 (fun s _ _ _ => s)).calls =
      [⟨0, 1024, 2049⟩, ⟨1024, 2048, 2049⟩, ⟨2048, 2049, 2049⟩] ∧
    ¬ ∀ c ∈ (ParticlePool.ParallelSpawn 1024
        ({ alive := 0, maxSize := 4096, particles := [], maxGroup := 4 } : ParticlePool Nat)
        2049 (fun s _ _ _ => s)).calls, 1024 ≤ c.stop - c.start := by
  decide

/-- The remainder of the grouping is `count` modulo the group count. -/
theorem CalcGroup_last_eq_mod {g c r count : Nat} (hc : c = count / g)
    (hsum : g * c + r = count) : r = count % g := by
  have h := Nat.div_add_mod count g
  rw [← hc] at h
  omega

/-- The regular group size is at least the smaller of `count` and the ideal size. -/
theorem CalcGroup_countPerGroup_ge {ideal maxGroup count g : Nat} (hc : 0 < count)
    (hi : 1 ≤ ideal) (hg : g = min (count / min count ideal) maxGroup) (hg1 : 1 ≤ g) :
    min count ideal ≤ count / g := by
  have hm : 0 < min count ideal := by omega
  have hq : count / min count ideal * min count ideal ≤ count := Nat.div_mul_le_self _ _
  have hle : g ≤ count / min count ideal := by omega
  have h1 : g * min count ideal ≤ count :=
    Nat.le_trans (Nat.mul_le_mul_right _ hle) hq
  rw [Nat.le_div_iff_mul_le (by omega)]
  rw [Nat.mul_comm]
  exact h1

/-- C25: for a 32-bit `count > 0`, `maxGroup ≥ 1` and `IDEAL_GROUP_COUNT ≥ 1`, `CalcGroup`
returns `countPerGroup ≥ min count IDEAL_GROUP_COUNT`. -/
theorem C25_countPerGroup_ge_ideal {α : Type} (ideal : Nat) (p : ParticlePool α)
    (count : Nat) (hc : 0 < count) (h32 : count < 4294967296) (hg : 1 ≤ p.maxGroup)
    (hi : 1 ≤ ideal) :
    ∃ groupNum countPerGroup lastGroupCount,
      p.CalcGroup ideal count = some (groupNum, countPerGroup, lastGroupCount) ∧
      min count ideal ≤ countPerGroup := by
  obtain ⟨g, c, r, hcg, hgdef, hcdef, hg1, -, -, -, -⟩ :=
    CalcGroup_spec ideal p count hc h32 hg hi
  refine ⟨g, c, r, hcg, ?_⟩
  rw [hcdef]
  exact CalcGroup_countPerGroup_ge hc hi hgdef hg1

/-- Witness for C25: 100 items, at most 40 groups, ideal group size 2. -/
theorem C25_countPerGroup_ge_ideal_witness :
    ∃ groupNum countPerGroup lastGroupCount,
      ParticlePool.CalcGroup 2
        ({ alive := 100, maxSize := 100, particles := [], maxGroup := 40 } : ParticlePool Nat)
        100 = some (groupNum, countPerGroup, lastGroupCount) ∧
      min 100 2 ≤ countPerGroup :=
  C25_countPerGroup_ge_ideal 2
    ({ alive := 100, maxSize := 100, particles := [], maxGroup := 40 } : ParticlePool Nat)
    100 (by decide) (by decide) (by decide) (by decide)

/-- C26: for a 32-bit `count > 0`, `maxGroup ≥ 1` and `IDEAL_GROUP_COUNT ≥ 1`, `CalcGroup`
returns `lastGroupCount = count % groupNum`, hence `lastGroupCount < groupNum ≤ maxGroup`. -/
theorem C26_lastGroupCount_eq_mod {α : Type} (ideal : Nat) (p : ParticlePool α)
    (count : Nat) (hc : 0 < count) (h32 : count < 4294967296) (hg : 1 ≤ p.maxGroup)
    (hi : 1 ≤ ideal) :
    ∃ groupNum countPerGroup lastGroupCount,
      p.CalcGroup ideal count = some (groupNum, countPerGroup, lastGroupCount) ∧
      lastGroupCount = count % groupNum ∧
      lastGroupCount < groupNum ∧ groupNum ≤ p.maxGroup := by
  obtain ⟨g, c, r, hcg, -, hcdef, hg1, hgm, -, -, hsum⟩ :=
    CalcGroup_spec ideal p count hc h32 hg hi
  have hmod := CalcGroup_last_eq_mod hcdef hsum
  refine ⟨g, c, r, hcg, hmod, ?_, hgm⟩
  rw [hmod]
  exact Nat.mod_lt count (by omega)

/-- Witness for C26: 100 items, at most 40 groups, ideal group size 2. -/
theorem C26_lastGroupCount_eq_mod_witness :
    ∃ groupNum countPerGroup lastGroupCount,
      ParticlePool.CalcGroup 2
        ({ alive := 100, maxSize := 100, particles := [], maxGroup := 40 } : ParticlePool Nat)
        100 = some (groupNum, countPerGroup, lastGroupCount) ∧
      lastGroupCount = 100 % groupNum ∧
      lastGroupCount < groupNum ∧ groupNum ≤ 40 :=
  C26_lastGroupCount_eq_mod 2
    ({ alive := 100, maxSize := 100, particles := [], maxGroup := 40 } : ParticlePool Nat)
    100 (by decide) (by decide) (by decide) (by decide)

/-- C27: for a 32-bit `count > 0` and `1 ≤ maxGroup ≤ IDEAL_GROUP_COUNT`, `CalcGroup`
returns `lastGroupCount < countPerGroup`. -/
theorem C27_lastGroupCount_lt_countPerGroup {α : Type} (ideal : Nat) (p : ParticlePool α)
    (count : Nat) (hc : 0 < count) (h32 : count < 4294967296) (hg : 1 ≤ p.maxGroup)
    (hgi : p.maxGroup ≤ ideal) :
    ∃ groupNum countPerGroup lastGroupCount,
      p.CalcGroup ideal count = some (groupNum, countPerGroup, lastGroupCount) ∧
      lastGroupCount < countPerGroup := by
  have hi : 1 ≤ ideal := Nat.le_trans hg hgi
  obtain ⟨g, c, r, hcg, hgdef, hcdef, hg1, hgm, -, hc1, hsum⟩ :=
    CalcGroup_spec ideal p count hc h32 hg hi
  have hmod := CalcGroup_last_eq_mod hcdef hsum
  have hlt : r < g := by rw [hmod]; exact Nat.mod_lt count (by omega)
  have hge : min count ideal ≤ c := by
    rw [hcdef]; exact CalcGroup_countPerGroup_ge hc hi hgdef hg1
  refine ⟨g, c, r, hcg, ?_⟩
  by_cases hbig : ideal ≤ count
  · omega
  · have hm : min count ideal = count := by omega
    have hq : count / min count ideal = 1 := by rw [hm]; exact Nat.div_self hc
    have hgone : g = 1 := by rw [hgdef, hq]; omega
    omega

/-- Witness for C27: 100 items, at most 8 groups, ideal group size 16. -/
theorem C27_lastGroupCount_lt_countPerGroup_witness :
    ∃ groupNum countPerGroup lastGroupCount,
      ParticlePool.CalcGroup 16
        ({ alive := 100, maxSize := 100, particles := [], maxGroup := 8 } : ParticlePool Nat)
        100 = some (groupNum, countPerGroup, lastGroupCount) ∧
      lastGroupCount < countPerGroup :=
  C27_lastGroupCount_lt_countPerGroup 16
    ({ alive := 100, maxSize := 100, particles := [], maxGroup := 8 } : ParticlePool Nat)
    100 (by decide) (by decide) (by decide) (by decide)

/-- The group count of the source equals the group count described in words. -/
theorem groupNum_eq_groupNumSpec (ideal maxGroup count : Nat) (hc : 0 < count)
    (hi : 1 ≤ ideal) :
    min (count / min count ideal) maxGroup = groupNumSpec ideal maxGroup count := by
  unfold groupNumSpec
  by_cases hbig : ideal ≤ count
  · have hm : min count ideal = ideal := by omega
    have hq : 1 ≤ count / ideal := Nat.div_pos hbig (by omega)
    rw [hm]
    omega
  · have hm : min count ideal = count := by omega
    have hq : count / count = 1 := Nat.div_self hc
    have hz : count / ideal = 0 := Nat.div_eq_of_lt (by omega)
    rw [hm, hq, hz]
    omega

theorem groupNumSpec_mono (ideal maxGroup : Nat) {count count' : Nat} (h : count ≤ count') :
    groupNumSpec ideal maxGroup count ≤ groupNumSpec ideal maxGroup count' := by
  unfold groupNumSpec
  have hq : count / ideal ≤ count' / ideal := Nat.div_le_div_right h
  omega

theorem groupNumSpec_saturates (ideal maxGroup count : Nat) (hi : 1 ≤ ideal)
    (hg : 1 ≤ maxGroup) (h : maxGroup * ideal ≤ count) :
    groupNumSpec ideal maxGroup count = maxGroup := by
  unfold groupNumSpec
  have hq : maxGroup ≤ count / ideal := (Nat.le_div_iff_mul_le (by omega)).2 h
  omega

/-- C28: for 32-bit counts `0 < count ≤ count'`, `maxGroup ≥ 1` and
`IDEAL_GROUP_COUNT ≥ 1`, the `groupNum` of `CalcGroup` is
`min (max 1 (count / IDEAL_GROUP_COUNT)) maxGroup`; it does not decrease from `count` to
`count'`; and it is `maxGroup` as soon as `count ≥ maxGroup * IDEAL_GROUP_COUNT`. -/
theorem C28_groupNum_refines_spec {α : Type} (ideal : Nat) (p : ParticlePool α)
    (count count' : Nat) (hc : 0 < count) (hle : count ≤ count')
    (h32 : count' < 4294967296) (hg : 1 ≤ p.maxGroup) (hi : 1 ≤ ideal) :
    ∃ groupNum countPerGroup lastGroupCount groupNum' countPerGroup' lastGroupCount',
      p.CalcGroup ideal count = some (groupNum, countPerGroup, lastGroupCount) ∧
      p.CalcGroup ideal count' = some (groupNum', countPerGroup', lastGroupCount') ∧
      groupNum = groupNumSpec ideal p.maxGroup count ∧
      groupNum' = groupNumSpec ideal p.maxGroup count' ∧
      groupNum ≤ groupNum' ∧
      (p.maxGroup * ideal ≤ count → groupNum = p.maxGroup) := by
  obtain ⟨g, c, r, hcg, hgdef, -⟩ :=
    CalcGroup_spec ideal p count hc (by omega) hg hi
  obtain ⟨g', c', r', hcg', hgdef', -⟩ :=
    CalcGroup_spec ideal p count' (by omega) h32 hg hi
  rw [groupNum_eq_groupNumSpec ideal p.maxGroup count hc hi] at hgdef
  rw [groupNum_eq_groupNumSpec ideal p.maxGroup count' (by omega) hi] at hgdef'
  refine ⟨g, c, r, g', c', r', hcg, hcg', hgdef, hgdef', ?_, ?_⟩
  · rw [hgdef, hgdef']
    exact groupNumSpec_mono ideal p.maxGroup hle
  · intro hsat
    rw [hgdef]
    exact groupNumSpec_saturates ideal p.maxGroup count hi hg hsat

/-- Witness for C28: ideal group size 16, at most 8 groups, counts 100 and 200. -/
theorem C28_groupNum_refines_spec_witness :
    ∃ groupNum countPerGroup lastGroupCount groupNum' countPerGroup' lastGroupCount',
      ParticlePool.CalcGroup 16
        ({ alive := 200, maxSize := 200, particles := [], maxGroup := 8 } : ParticlePool Nat)
        100 = some (groupNum, countPerGroup, lastGroupCount) ∧
      ParticlePool.CalcGroup 16
        ({ alive := 200, maxSize := 200, particles := [], maxGroup := 8 } : ParticlePool Nat)
        200 = some (groupNum', countPerGroup', lastGroupCount') ∧
      groupNum = groupNumSpec 16 8 100 ∧
      groupNum' = groupNumSpec 16 8 200 ∧
      groupNum ≤ groupNum' ∧
      (8 * 16 ≤ 100 → groupNum = 8) :=
  C28_groupNum_refines_spec 16
    ({ alive := 200, maxSize := 200, particles := [], maxGroup := 8 } : ParticlePool Nat)
    100 200 (by decide) (by decide) (by decide) (by decide) (by decide)

/-! ## Index safety and successive spawns -/

/-- A spawn without wrap-around on a pool with `alive ≤ maxSize` and `maxGroup ≥ 1` does
not fault, and its ranges partition `[old, new alive)` (also when nothing is added). -/
theorem ParallelSpawn_partition {α : Type} (ideal : Nat) (p : ParticlePool α) (num : Nat)
    (func : List α → Nat → Nat → Nat → List α)
    (hg : 1 ≤ p.maxGroup) (hi : 1 ≤ ideal)
    (hinv : p.alive ≤ p.maxSize) (hcap : p.maxSize < 4294967296)
    (hnw : p.alive + num < 4294967296) :
    (p.ParallelSpawn ideal num func).fault = false ∧
    Partition ((p.ParallelSpawn ideal num func).calls.map SpawnCall.range)
      p.alive (min (p.alive + num) p.maxSize) := by
  by_cases hroom : p.alive < min (p.alive + num) p.maxSize
  · obtain ⟨g, c, r, -, -, -, hc1, hsum, hfault, hcalls⟩ :=
      ParallelSpawn_calls ideal p num func hcap hnw hg hi hroom
    refine ⟨hfault, ?_⟩
    rw [hcalls, map_range_spawn]
    have hend : min (p.alive + num) p.maxSize = p.alive + g * c + r := by omega
    rw [hend]
    exact partition_of_tiles p.alive g c r hc1
  · have hnoop := ParallelSpawn_noop ideal p num func hinv hnw (by omega)
    have hend : min (p.alive + num) p.maxSize = p.alive := by omega
    rw [hnoop, hend]
    exact ⟨rfl, partition_nil p.alive⟩

/-- An update with `begin ≤ alive` on a pool with `maxGroup ≥ 1` does not fault. -/
theorem ParallelUpdate_no_fault {α : Type} (ideal : Nat) (p : ParticlePool α) (begin : Nat)
    (func : List α → Nat → Nat → List α)
    (hg : 1 ≤ p.maxGroup) (hi : 1 ≤ ideal) (halive : p.alive < 4294967296)
    (hb : begin ≤ p.alive) :
    (p.ParallelUpdate ideal begin func).fault = false := by
  by_cases hlt : begin < p.alive
  · obtain ⟨g, c, r, -, -, -, -, -, hfault, -⟩ :=
      ParallelUpdate_calls ideal p begin func halive hg hi hlt
    exact hfault
  · have hzero : sub32 p.alive begin = 0 := by
      rw [sub32_of_le hb halive]; omega
    unfold ParticlePool.ParallelUpdate
    simp only [hzero, if_true]

/-- A traversal on a pool with `maxGroup ≥ 1` does not fault. -/
theorem RenderAll_no_fault {α : Type} (ideal : Nat) (p : ParticlePool α)
    (hg : 1 ≤ p.maxGroup) (hi : 1 ≤ ideal) (halive : p.alive < 4294967296) :
    (p.RenderAll ideal).fault = false := by
  by_cases hpos : 0 < p.alive
  · obtain ⟨g, c, r, -, -, -, -, -, hfault, -⟩ := RenderAll_calls ideal p halive hg hi hpos
    exact hfault
  · have hz : p.alive = 0 := by omega
    unfold ParticlePool.RenderAll
    rw [if_pos hz]

/-- Exact bounds of the index computations of a dispatch loop over `count = g * c + r`
items from index `b`, when `b + count` is a 32-bit value. -/
theorem dispatch_no_wrap (b g c r count : Nat) (hsum : g * c + r = count)
    (hb : b + count < 4294967296) :
    (∀ group, group ≤ g → group * c + b < 4294967296) ∧
    (∀ group, group < g → group * c + b + c < 4294967296) ∧
    g * c + b + r < 4294967296 := by
  refine ⟨?_, ?_, by omega⟩
  · intro group hle
    have h1 : group * c ≤ g * c := Nat.mul_le_mul_right c hle
    omega
  · intro group hlt
    have h1 : (group + 1) * c ≤ g * c := Nat.mul_le_mul_right c hlt
    have h2 : (group + 1) * c = group * c + c := by rw [Nat.add_mul]; omega
    omega

/-- A grouping of zero items divides by zero. -/
theorem CalcGroup_zero {α : Type} (ideal : Nat) (p : ParticlePool α) :
    p.CalcGroup ideal 0 = none := by
  simp [ParticlePool.CalcGroup, div32]

/-- Every invocation of `RenderAll` gets a non-empty range inside `[0, alive)`. -/
theorem RenderAll_calls_bounds {α : Type} (ideal : Nat) (p : ParticlePool α)
    (hg : 1 ≤ p.maxGroup) (hi : 1 ≤ ideal) (halive : p.alive < 4294967296) :
    ∀ c ∈ (p.RenderAll ideal).calls, c.start < c.stop ∧ c.stop ≤ p.alive := by
  intro x hx
  by_cases hpos : 0 < p.alive
  · obtain ⟨g, c, r, -, -, -, hc1, hsum, -, hcalls⟩ :=
      RenderAll_calls ideal p halive hg hi hpos
    rw [hcalls, List.mem_map] at hx
    obtain ⟨t, ht, rfl⟩ := hx
    have hne := tiles_nonempty 0 g c r hc1 t ht
    have hcov := (tiles_cover 0 g c r (t.2 - 1) hc1).1 ⟨t, ht, by omega, by omega⟩
    have hhi : t.2 ≤ p.alive := by omega
    exact ⟨hne, hhi⟩
  · have hz : p.alive = 0 := by omega
    unfold ParticlePool.RenderAll at hx
    rw [if_pos hz] at hx
    exact absurd hx (List.not_mem_nil x)

/-- C29: on a pool with `maxGroup ≥ 1`, `alive ≤ maxSize` and a storage of `maxSize`
records, for `ParallelSpawn` (with `alive + num` not wrapping), `ParallelUpdate` (with
`begin ≤ alive`) and `RenderAll`: the call does not fault; every range `[start, stop)`
passed to the callback has `start < stop ≤ alive ≤ maxSize` (for the spawn, the new
`alive`); and when there is something to process, `CalcGroup` is applied to that positive
count and none of `group * countPerGroup + base`, `start + countPerGroup` and
`start + lastGroupCount` exceeds the 32-bit range.  A grouping of zero items would divide
by zero, so the absence of a fault means `CalcGroup` is reached with `count > 0` only. -/
theorem C29_index_safety {α : Type} (ideal : Nat) (p : ParticlePool α)
    (hg : 1 ≤ p.maxGroup) (hi : 1 ≤ ideal)
    (hinv : p.alive ≤ p.maxSize) (hcap : p.maxSize < 4294967296)
    (hlen : p.particles.length = p.maxSize) :
    (∀ (num : Nat) (func : List α → Nat → Nat → Nat → List α),
      p.alive + num < 4294967296 →
      (p.ParallelSpawn ideal num func).fault = false ∧
      (∀ c ∈ (p.ParallelSpawn ideal num func).calls,
        c.start < c.stop ∧ c.stop ≤ (p.ParallelSpawn ideal num func).pool.alive) ∧
      (p.ParallelSpawn ideal num func).pool.alive ≤ p.maxSize ∧
      p.maxSize = p.particles.length ∧
      (p.alive < (p.ParallelSpawn ideal num func).pool.alive →
        ∃ groupNum countPerGroup lastGroupCount,
          p.CalcGroup ideal ((p.ParallelSpawn ideal num func).pool.alive - p.alive) =
            some (groupNum, countPerGroup, lastGroupCount) ∧
          (∀ group, group ≤ groupNum → group * countPerGroup + p.alive < 4294967296) ∧
          (∀ group, group < groupNum →
            group * countPerGroup + p.alive + countPerGroup < 4294967296) ∧
          groupNum * countPerGroup + p.alive + lastGroupCount < 4294967296)) ∧
    (∀ (begin : Nat) (func : List α → Nat → Nat → List α),
      begin ≤ p.alive →
      (p.ParallelUpdate ideal begin func).fault = false ∧
      (∀ c ∈ (p.ParallelUpdate ideal begin func).calls,
        c.start < c.stop ∧ c.stop ≤ p.alive) ∧
      p.alive ≤ p.maxSize ∧
      p.maxSize = p.particles.length ∧
      (begin < p.alive →
        ∃ groupNum countPerGroup lastGroupCount,
          p.CalcGroup ideal (p.alive - begin) =
            some (groupNum, countPerGroup, lastGroupCount) ∧
          (∀ group, group ≤ groupNum → group * countPerGroup + begin < 4294967296) ∧
          (∀ group, group < groupNum →
            group * countPerGroup + begin + countPerGroup < 4294967296) ∧
          groupNum * countPerGroup + begin + lastGroupCount < 4294967296)) ∧
    ((p.RenderAll ideal).fault = false ∧
      (∀ c ∈ (p.RenderAll ideal).calls, c.start < c.stop ∧ c.stop ≤ p.alive) ∧
      p.alive ≤ p.maxSize ∧
      p.maxSize = p.particles.length ∧
      (0 < p.alive →
        ∃ groupNum countPerGroup lastGroupCount,
          p.CalcGroup ideal p.alive = some (groupNum, countPerGroup, lastGroupCount) ∧
          (∀ group, group ≤ groupNum → group * countPerGroup < 4294967296) ∧
          (∀ group, group < groupNum →
            group * countPerGroup + countPerGroup < 4294967296) ∧
          groupNum * countPerGroup + lastGroupCount < 4294967296)) ∧
    p.CalcGroup ideal 0 = none := by
  have halive : p.alive < 4294967296 := by omega
  refine ⟨?_, ?_, ?_, CalcGroup_zero ideal p⟩
  · intro num func hnw
    have hnew : (p.ParallelSpawn ideal num func).pool.alive = min (p.alive + num) p.maxSize := by
      rw [(ParallelSpawn_bookkeeping ideal p num func).2.1, add32_of_lt hnw]
    rw [hnew]
    refine ⟨(ParallelSpawn_partition ideal p num func hg hi hinv hcap hnw).1, ?_,
      Nat.min_le_right _ _, hlen.symm, ?_⟩
    · intro c hc
      obtain ⟨-, h2, h3, -⟩ := ParallelSpawn_calls_bounds ideal p num func hinv hcap hnw c hc
      exact ⟨h2, h3⟩
    · intro hroom
      obtain ⟨g, c, r, hcg, -, -, -, hsum, -, -⟩ :=
        ParallelSpawn_calls ideal p num func hcap hnw hg hi hroom
      obtain ⟨w1, w2, w3⟩ := dispatch_no_wrap p.alive g c r _ hsum (by omega)
      exact ⟨g, c, r, hcg, w1, w2, w3⟩
  · intro begin func hb
    refine ⟨ParallelUpdate_no_fault ideal p begin func hg hi halive hb, ?_, hinv,
      hlen.symm, ?_⟩
    · intro c hc
      obtain ⟨-, h2, h3⟩ := ParallelUpdate_calls_bounds ideal p begin func halive hb c hc
      exact ⟨h2, h3⟩
    · intro hlt
      obtain ⟨g, c, r, hcg, -, -, -, hsum, -, -⟩ :=
        ParallelUpdate_calls ideal p begin func halive hg hi hlt
      obtain ⟨w1, w2, w3⟩ := dispatch_no_wrap begin g c r _ hsum (by omega)
      exact ⟨g, c, r, hcg, w1, w2, w3⟩
  · refine ⟨RenderAll_no_fault ideal p hg hi halive,
      RenderAll_calls_bounds ideal p hg hi halive, hinv, hlen.symm, ?_⟩
    intro hpos
    obtain ⟨g, c, r, hcg, -, -, -, hsum, -, -⟩ := RenderAll_calls ideal p halive hg hi hpos
    obtain ⟨w1, w2, w3⟩ := dispatch_no_wrap 0 g c r _ hsum (by omega)
    exact ⟨g, c, r, hcg, w1, w2, w3⟩

/-- Witness for C29: the sample pool (capacity 10, 4 live records, at most 3 groups) with
ideal group size 2: a spawn of 5, an update from index 1, and the traversal. -/
theorem C29_index_safety_witness :
    ((samplePool.ParallelSpawn 2 5 (fun s _ _ _ => s)).fault = false ∧
      ∀ c ∈ (samplePool.ParallelSpawn 2 5 (fun s _ _ _ => s)).calls,
        c.start < c.stop ∧
        c.stop ≤ (samplePool.ParallelSpawn 2 5 (fun s _ _ _ => s)).pool.alive) ∧
    ((samplePool.ParallelUpdate 2 1 (fun s _ _ => s)).fault = false ∧
      ∀ c ∈ (samplePool.ParallelUpdate 2 1 (fun s _ _ => s)).calls,
        c.start < c.stop ∧ c.stop ≤ samplePool.alive) ∧
    ((samplePool.RenderAll 2).fault = false ∧
      ∀ c ∈ (samplePool.RenderAll 2).calls, c.start < c.stop ∧ c.stop ≤ samplePool.alive) :=
  ⟨⟨((C29_index_safety 2 samplePool (by decide) (by decide) (by decide) (by decide)
        (by decide)).1 5 (fun s _ _ _ => s) (by decide)).1,
    ((C29_index_safety 2 samplePool (by decide) (by decide) (by decide) (by decide)
        (by decide)).1 5 (fun s _ _ _ => s) (by decide)).2.1⟩,
   ⟨((C29_index_safety 2 samplePool (by decide) (by decide) (by decide) (by decide)
        (by decide)).2.1 1 (fun s _ _ => s) (by decide)).1,
    ((C29_index_safety 2 samplePool (by decide) (by decide) (by decide) (by decide)
        (by decide)).2.1 1 (fun s _ _ => s) (by decide)).2.1⟩,
   ⟨(C29_index_safety 2 samplePool (by decide) (by decide) (by decide) (by decide)
        (by decide)).2.2.1.1,
    (C29_index_safety 2 samplePool (by decide) (by decide) (by decide) (by decide)
        (by decide)).2.2.1.2.1⟩⟩

/-- C30: on a pool with `maxGroup ≥ 1` and `alive ≤ maxSize`, with `alive + a + b` in the
32-bit range, `ParallelSpawn(a)` followed by `ParallelSpawn(b)`: the second `begin` is the
`alive` left by the first; the ranges of the first call partition `[old, alive₁)` and
those of the second partition `[alive₁, alive₂)`, so every range of the first ends at or
before the start of every range of the second; and the final `alive` is the one a single
`ParallelSpawn(a + b)` leaves. -/
theorem C30_successive_spawns_tile {α : Type} (ideal : Nat) (p : ParticlePool α)
    (a b : Nat) (f1 f2 f3 : List α → Nat → Nat → Nat → List α)
    (hg : 1 ≤ p.maxGroup) (hi : 1 ≤ ideal)
    (hinv : p.alive ≤ p.maxSize) (hcap : p.maxSize < 4294967296)
    (hnw : p.alive + a + b < 4294967296) :
    ((p.ParallelSpawn ideal a f1).pool.ParallelSpawn ideal b f2).begin =
      (p.ParallelSpawn ideal a f1).pool.alive ∧
    Partition ((p.ParallelSpawn ideal a f1).calls.map SpawnCall.range)
      p.alive (p.ParallelSpawn ideal a f1).pool.alive ∧
    Partition
      (((p.ParallelSpawn ideal a f1).pool.ParallelSpawn ideal b f2).calls.map SpawnCall.range)
      (p.ParallelSpawn ideal a f1).pool.alive
      ((p.ParallelSpawn ideal a f1).pool.ParallelSpawn ideal b f2).pool.alive ∧
    (∀ c1 ∈ (p.ParallelSpawn ideal a f1).calls,
      ∀ c2 ∈ ((p.ParallelSpawn ideal a f1).pool.ParallelSpawn ideal b f2).calls,
        c1.stop ≤ c2.start) ∧
    ((p.ParallelSpawn ideal a f1).pool.ParallelSpawn ideal b f2).pool.alive =
      (p.ParallelSpawn ideal (a + b) f3).pool.alive := by
  obtain ⟨-, h1a, h1m, h1g⟩ := ParallelSpawn_bookkeeping ideal p a f1
  rw [add32_of_lt (by omega)] at h1a
  generalize (p.ParallelSpawn ideal a f1).pool = q at h1a h1m h1g
  obtain ⟨h2b, h2a, -, -⟩ := ParallelSpawn_bookkeeping ideal q b f2
  have hqnw : q.alive + b < 4294967296 := by rw [h1a]; omega
  rw [add32_of_lt hqnw] at h2a
  obtain ⟨-, h3a, -, -⟩ := ParallelSpawn_bookkeeping ideal p (a + b) f3
  rw [add32_of_lt (by omega)] at h3a
  have hqinv : q.alive ≤ q.maxSize := by rw [h1a, h1m]; omega
  have hqcap : q.maxSize < 4294967296 := by rw [h1m]; exact hcap
  have hP1 := (ParallelSpawn_partition ideal p a f1 hg hi hinv hcap (by omega)).2
  have hP2 := (ParallelSpawn_partition ideal q b f2 (by omega) hi hqinv hqcap hqnw).2
  rw [← h2a] at hP2
  refine ⟨h2b, ?_, hP2, ?_, ?_⟩
  · rw [h1a]
    exact hP1
  · intro c1 hc1 c2 hc2
    obtain ⟨-, -, e1, -⟩ :=
      ParallelSpawn_calls_bounds ideal p a f1 hinv hcap (by omega) c1 hc1
    obtain ⟨s2, -, -, -⟩ := ParallelSpawn_calls_bounds ideal q b f2 hqinv hqcap hqnw c2 hc2
    omega
  · rw [h2a, h3a, h1a, h1m]
    omega

/-- Witness for C30: the sample pool (capacity 10, 4 live records, at most 3 groups) with
ideal group size 2: a spawn of 3 followed by a spawn of 5, against a single spawn of 8. -/
theorem C30_successive_spawns_tile_witness :
    ((samplePool.ParallelSpawn 2 3 (fun s _ _ _ => s)).pool.ParallelSpawn 2 5
        (fun s _ _ _ => s)).begin =
      (samplePool.ParallelSpawn 2 3 (fun s _ _ _ => s)).pool.alive ∧
    ((samplePool.ParallelSpawn 2 3 (fun s _ _ _ => s)).pool.ParallelSpawn 2 5
        (fun s _ _ _ => s)).pool.alive =
      (samplePool.ParallelSpawn 2 (3 + 5) (fun s _ _ _ => s)).pool.alive :=
  ⟨(C30_successive_spawns_tile 2 samplePool 3 5 (fun s _ _ _ => s) (fun s _ _ _ => s)
      (fun s _ _ _ => s) (by decide) (by decide) (by decide) (by decide) (by decide)).1,
   (C30_successive_spawns_tile 2 samplePool 3 5 (fun s _ _ _ => s) (fun s _ _ _ => s)
      (fun s _ _ _ => s) (by decide) (by decide) (by decide) (by decide)
      (by decide)).2.2.2.2⟩


/-! ## Sizes of the dispatched tasks -/

theorem tiles_take (b g c r : Nat) :
    (tiles b g c r).take g = (List.range g).map (fun i => (b + i * c, b + (i + 1) * c)) := by
  unfold tiles
  have h := List.take_left ((List.range g).map (fun i => (b + i * c, b + (i + 1) * c)))
    (if r > 0 then [(b + g * c, b + g * c + r)] else [])
  rw [List.length_map, List.length_range] at h
  exact h

theorem tiles_drop (b g c r : Nat) :
    (tiles b g c r).drop g = if r > 0 then [(b + g * c, b + g * c + r)] else [] := by
  unfold tiles
  have h := List.drop_left ((List.range g).map (fun i => (b + i * c, b + (i + 1) * c)))
    (if r > 0 then [(b + g * c, b + g * c + r)] else [])
  rw [List.length_map, List.length_range] at h
  exact h

/-- In a list of invocations laid out as `tiles b g c r`, the first `g` are `g` tasks of
`c` records each and what follows is at most one task, of `r` records. -/
theorem sizes_of_tiles_map {β : Type} (mk : Nat → Nat → β) (start stop : β → Nat)
    (hs : ∀ x y, start (mk x y) = x) (he : ∀ x y, stop (mk x y) = y) (b g c r : Nat) :
    (((tiles b g c r).map (fun t => mk t.1 t.2)).take g).length = g ∧
    (∀ x ∈ ((tiles b g c r).map (fun t => mk t.1 t.2)).take g, stop x - start x = c) ∧
    (((tiles b g c r).map (fun t => mk t.1 t.2)).drop g).length ≤ 1 ∧
    (∀ x ∈ ((tiles b g c r).map (fun t => mk t.1 t.2)).drop g, stop x - start x = r) := by
  rw [← List.map_take, ← List.map_drop, tiles_take, tiles_drop]
  refine ⟨by simp, ?_, ?_, ?_⟩
  · intro x hx
    rw [List.map_map, List.mem_map] at hx
    obtain ⟨i, -, rfl⟩ := hx
    show stop (mk (b + i * c) (b + (i + 1) * c)) - start (mk (b + i * c) (b + (i + 1) * c)) = c
    rw [hs, he, Nat.add_mul]
    omega
  · split <;> simp
  · intro x hx
    split at hx
    · rw [List.map_cons, List.map_nil, List.mem_singleton] at hx
      subst hx
      show stop (mk (b + g * c) (b + g * c + r)) - start (mk (b + g * c) (b + g * c + r)) = r
      rw [hs, he]
      omega
    · simp at hx

/-- C24 (amended): on a pool with `maxGroup ≥ 1`, for a bulk call over
`count ≥ IDEAL_GROUP_COUNT` items (`ParallelSpawn` adding `count` slots without
wrap-around, `ParallelUpdate` over `[begin, alive)`, `RenderAll` over `[0, alive)`), with
`(groupNum, countPerGroup, lastGroupCount) = CalcGroup count`: the first `groupNum`
invocations are the equal-sized tasks, each covering `countPerGroup ≥ IDEAL_GROUP_COUNT`
records; what follows is at most one invocation, the trailing task, which covers
`lastGroupCount` records. -/
theorem C24_equal_tasks_cover_ideal {α : Type} (ideal : Nat) (p : ParticlePool α)
    (hg : 1 ≤ p.maxGroup) (hi : 1 ≤ ideal) (hcap : p.maxSize < 4294967296)
    (halive : p.alive < 4294967296) :
    (∀ (num : Nat) (func : List α → Nat → Nat → Nat → List α),
      p.alive + num < 4294967296 → ideal ≤ min (p.alive + num) p.maxSize - p.alive →
      ∃ groupNum countPerGroup lastGroupCount,
        p.CalcGroup ideal (min (p.alive + num) p.maxSize - p.alive) =
          some (groupNum, countPerGroup, lastGroupCount) ∧
        ideal ≤ countPerGroup ∧
        ((p.ParallelSpawn ideal num func).calls.take groupNum).length = groupNum ∧
        (∀ c ∈ (p.ParallelSpawn ideal num func).calls.take groupNum,
          c.stop - c.start = countPerGroup) ∧
        ((p.ParallelSpawn ideal num func).calls.drop groupNum).length ≤ 1 ∧
        (∀ c ∈ (p.ParallelSpawn ideal num func).calls.drop groupNum,
          c.stop - c.start = lastGroupCount)) ∧
    (∀ (begin : Nat) (func : List α → Nat → Nat → List α),
      begin ≤ p.alive → ideal ≤ p.alive - begin →
      ∃ groupNum countPerGroup lastGroupCount,
        p.CalcGroup ideal (p.alive - begin) =
          some (groupNum, countPerGroup, lastGroupCount) ∧
        ideal ≤ countPerGroup ∧
        ((p.ParallelUpdate ideal begin func).calls.take groupNum).length = groupNum ∧
        (∀ c ∈ (p.ParallelUpdate ideal begin func).calls.take groupNum,
          c.stop - c.start = countPerGroup) ∧
        ((p.ParallelUpdate ideal begin func).calls.drop groupNum).length ≤ 1 ∧
        (∀ c ∈ (p.ParallelUpdate ideal begin func).calls.drop groupNum,
          c.stop - c.start = lastGroupCount)) ∧
    (ideal ≤ p.alive →
      ∃ groupNum countPerGroup lastGroupCount,
        p.CalcGroup ideal p.alive = some (groupNum, countPerGroup, lastGroupCount) ∧
        ideal ≤ countPerGroup ∧
        ((p.RenderAll ideal).calls.take groupNum).length = groupNum ∧
        (∀ c ∈ (p.RenderAll ideal).calls.take groupNum,
          c.stop - c.start = countPerGroup) ∧
        ((p.RenderAll ideal).calls.drop groupNum).length ≤ 1 ∧
        (∀ c ∈ (p.RenderAll ideal).calls.drop groupNum,
          c.stop - c.start = lastGroupCount)) := by
  have key : ∀ count : Nat, ideal ≤ count → count < 4294967296 →
      ∀ g c r : Nat, p.CalcGroup ideal count = some (g, c, r) → ideal ≤ c := by
    intro count hge h32 g c r hcg
    obtain ⟨g', c', r', hcg', hgdef, hcdef, hg1, -⟩ :=
      CalcGroup_spec ideal p count (by omega) h32 hg hi
    rw [hcg] at hcg'
    simp only [Option.some.injEq, Prod.mk.injEq] at hcg'
    obtain ⟨rfl, rfl, rfl⟩ := hcg'
    have hmin := CalcGroup_countPerGroup_ge (by omega) hi hgdef hg1
    rw [← hcdef] at hmin
    omega
  refine ⟨?_, ?_, ?_⟩
  · intro num func hnw hge
    obtain ⟨g, c, r, hcg, -, -, -, -, -, hcalls⟩ :=
      ParallelSpawn_calls ideal p num func hcap hnw hg hi (by omega)
    refine ⟨g, c, r, hcg, key _ hge (by omega) g c r hcg, ?_⟩
    rw [hcalls]
    exact sizes_of_tiles_map
      (fun x y => SpawnCall.mk x y (min (p.alive + num) p.maxSize))
      SpawnCall.start SpawnCall.stop (fun _ _ => rfl) (fun _ _ => rfl) p.alive g c r
  · intro begin func hb hge
    obtain ⟨g, c, r, hcg, -, -, -, -, -, hcalls⟩ :=
      ParallelUpdate_calls ideal p begin func halive hg hi (by omega)
    refine ⟨g, c, r, hcg, key _ hge (by omega) g c r hcg, ?_⟩
    rw [hcalls]
    exact sizes_of_tiles_map (fun x y => RangeCall.mk x y)
      RangeCall.start RangeCall.stop (fun _ _ => rfl) (fun _ _ => rfl) begin g c r
  · intro hge
    obtain ⟨g, c, r, hcg, -, -, -, -, -, hcalls⟩ :=
      RenderAll_calls ideal p halive hg hi (by omega)
    refine ⟨g, c, r, hcg, key _ hge halive g c r hcg, ?_⟩
    rw [hcalls]
    exact sizes_of_tiles_map (fun x y => RangeCall.mk x y)
      RangeCall.start RangeCall.stop (fun _ _ => rfl) (fun _ _ => rfl) 0 g c r

/-- Witness for C24 (amended): the sample pool (capacity 10, 4 live records, at most 3
groups) with ideal group size 2: a spawn of 5, an update from index 1, and the
traversal. -/
theorem C24_equal_tasks_cover_ideal_witness :
    (∃ groupNum countPerGroup lastGroupCount,
        samplePool.CalcGroup 2 (min (samplePool.alive + 5) samplePool.maxSize
          - samplePool.alive) = some (groupNum, countPerGroup, lastGroupCount) ∧
        2 ≤ countPerGroup ∧
        ((samplePool.ParallelSpawn 2 5 (fun s _ _ _ => s)).calls.take groupNum).length
          = groupNum ∧
        (∀ c ∈ (samplePool.ParallelSpawn 2 5 (fun s _ _ _ => s)).calls.take groupNum,
          c.stop - c.start = countPerGroup) ∧
        ((samplePool.ParallelSpawn 2 5 (fun s _ _ _ => s)).calls.drop groupNum).length ≤ 1 ∧
        (∀ c ∈ (samplePool.ParallelSpawn 2 5 (fun s _ _ _ => s)).calls.drop groupNum,
          c.stop - c.start = lastGroupCount)) ∧
    (∃ groupNum countPerGroup lastGroupCount,
        samplePool.CalcGroup 2 (samplePool.alive - 1) =
          some (groupNum, countPerGroup, lastGroupCount) ∧
        2 ≤ countPerGroup ∧
        ((samplePool.ParallelUpdate 2 1 (fun s _ _ => s)).calls.take groupNum).length
          = groupNum ∧
        (∀ c ∈ (samplePool.ParallelUpdate 2 1 (fun s _ _ => s)).calls.take groupNum,
          c.stop - c.start = countPerGroup) ∧
        ((samplePool.ParallelUpdate 2 1 (fun s _ _ => s)).calls.drop groupNum).length ≤ 1 ∧
        (∀ c ∈ (samplePool.ParallelUpdate 2 1 (fun s _ _ => s)).calls.drop groupNum,
          c.stop - c.start = lastGroupCount)) ∧
    (∃ groupNum countPerGroup lastGroupCount,
        samplePool.CalcGroup 2 samplePool.alive =
          some (groupNum, countPerGroup, lastGroupCount) ∧
        2 ≤ countPerGroup ∧
        ((samplePool.RenderAll 2).calls.take groupNum).length = groupNum ∧
        (∀ c ∈ (samplePool.RenderAll 2).calls.take groupNum,
          c.stop - c.start = countPerGroup) ∧
        ((samplePool.RenderAll 2).calls.drop groupNum).length ≤ 1 ∧
        (∀ c ∈ (samplePool.RenderAll 2).calls.drop groupNum,
          c.stop - c.start = lastGroupCount)) :=
  ⟨(C24_equal_tasks_cover_ideal 2 samplePool (by decide) (by decide) (by decide)
      (by decide)).1 5 (fun s _ _ _ => s) (by decide) (by decide),
   (C24_equal_tasks_cover_ideal 2 samplePool (by decide) (by decide) (by decide)
      (by decide)).2.1 1 (fun s _ _ => s) (by decide) (by decide),
   (C24_equal_tasks_cover_ideal 2 samplePool (by decide) (by decide) (by decide)
      (by decide)).2.2 (by decide)⟩

end SimuCore.ParticleCore
